import Mathlib

/-!
Shallow embedding of the linuxmemparser memory-forensics engine
(Rust sources under src/) together with theorems settling the frozen
claims about its behaviour.

Conventions of the embedding:
  - a memory dump is a `List Nat` of byte values (each < 256 on real inputs;
    reads mask nothing because the source reads bytes as they are);
  - Rust `u64`/`usize` arithmetic is `Nat` with an explicit `% 2 ^ 64`
    exactly where the source can wrap in release builds;
  - Rust `i32`/`i64` values are `Int`, produced by explicit
    two's-complement reinterpretation of the unsigned read;
  - fallible operations return `Option`;
  - Rust `HashMap` catalogues are association lists where `List.lookup`
    returns the most recently inserted binding (insertion is `cons`);
  - Rust `f64` steps (`validate_process_info`'s printable-ratio threshold)
    are modelled by exact round-to-nearest-even integer arithmetic on the
    IEEE-754 significands.
-/

set_option maxRecDepth 4000

namespace LMP

/-! ## Byte-buffer primitives (src/kernel/mod.rs, `KernelParser`) -/

/-- Byte of the dump at index `i` (indexing is always guarded by an
explicit bounds check before use, as in the source). -/
def byteAt (m : List Nat) (i : Nat) : Nat := m.getD i 0

/-- Little-endian value of a byte list (first byte is least significant). -/
def leVal : List Nat → Nat
  | [] => 0
  | b :: bs => b + 256 * leVal bs

/-- The `n` bytes of `m` starting at `off`. -/
def readBytes (m : List Nat) (off n : Nat) : List Nat :=
  (List.range n).map (fun i => byteAt m (off + i))

/-- Reinterpret an unsigned 32-bit value as a signed `i32`. -/
def toI32 (n : Nat) : Int :=
  if n < 2 ^ 31 then (n : Int) else (n : Int) - 2 ^ 32

/-- Embedding of `KernelParser::read_u64`. -/
def read_u64 (m : List Nat) (off : Nat) : Option Nat :=
  if off + 8 ≤ m.length then some (leVal (readBytes m off 8)) else none

/-- Embedding of `KernelParser::read_u32`. -/
def read_u32 (m : List Nat) (off : Nat) : Option Nat :=
  if off + 4 ≤ m.length then some (leVal (readBytes m off 4)) else none

/-- Embedding of `KernelParser::read_i32`. -/
def read_i32 (m : List Nat) (off : Nat) : Option Int :=
  if off + 4 ≤ m.length then some (toI32 (leVal (readBytes m off 4))) else none

/-! ## UTF-8 decoding (Rust `String::from_utf8_lossy` / `String::from_utf8`)

The source turns raw dump bytes into Rust strings.  We model a Rust string
as a Lean `String` (a sequence of Unicode scalar values).  The lossy
decoder substitutes one U+FFFD per maximal invalid subpart, exactly as
`from_utf8_lossy` does; the strict decoder fails on the first error. -/

/-- Continuation byte test (`0x80 ..= 0xBF`). -/
def isCont (b : Nat) : Bool := 0x80 ≤ b && b ≤ 0xBF

/-- First-continuation range for a three-byte lead: `0xE0` requires
`0xA0..=0xBF`, `0xED` requires `0x80..=0x9F`, the others `0x80..=0xBF`. -/
def cont3ok (lead c : Nat) : Bool :=
  if lead = 0xE0 then 0xA0 ≤ c && c ≤ 0xBF
  else if lead = 0xED then 0x80 ≤ c && c ≤ 0x9F
  else isCont c

/-- First-continuation range for a four-byte lead: `0xF0` requires
`0x90..=0xBF`, `0xF4` requires `0x80..=0x8F`, the others `0x80..=0xBF`. -/
def cont4ok (lead c : Nat) : Bool :=
  if lead = 0xF0 then 0x90 ≤ c && c ≤ 0xBF
  else if lead = 0xF4 then 0x80 ≤ c && c ≤ 0x8F
  else isCont c

/-- The replacement character U+FFFD. -/
def repl : Char := Char.ofNat 0xFFFD

/-- Decoded scalar from a lead byte and continuation payload. -/
def uChar (n : Nat) : Char := Char.ofNat n

/-- Lossy UTF-8 decoding of a byte list, one U+FFFD per maximal invalid
subpart (the WHATWG policy used by `String::from_utf8_lossy`).  The fuel
is only a structural-recursion device: every step consumes at least one
byte, so fuel equal to the byte count (as the wrapper passes) never runs
out. -/
def utf8LossyAux : Nat → List Nat → List Char
  | _, [] => []
  | 0, _ :: _ => []
  | fuel + 1, b :: rest =>
    if b < 0x80 then uChar b :: utf8LossyAux fuel rest
    else if b < 0xC2 then repl :: utf8LossyAux fuel rest
    else if b ≤ 0xDF then
      match rest with
      | [] => [repl]
      | c1 :: r2 =>
        if isCont c1 then uChar ((b - 0xC0) * 0x40 + (c1 - 0x80)) :: utf8LossyAux fuel r2
        else repl :: utf8LossyAux fuel (c1 :: r2)
    else if b ≤ 0xEF then
      match rest with
      | [] => [repl]
      | c1 :: r2 =>
        if cont3ok b c1 then
          match r2 with
          | [] => [repl]
          | c2 :: r3 =>
            if isCont c2 then
              uChar (((b - 0xE0) * 0x40 + (c1 - 0x80)) * 0x40 + (c2 - 0x80)) ::
                utf8LossyAux fuel r3
            else repl :: utf8LossyAux fuel (c2 :: r3)
        else repl :: utf8LossyAux fuel (c1 :: r2)
    else if b ≤ 0xF4 then
      match rest with
      | [] => [repl]
      | c1 :: r2 =>
        if cont4ok b c1 then
          match r2 with
          | [] => [repl]
          | c2 :: r3 =>
            if isCont c2 then
              match r3 with
              | [] => [repl]
              | c3 :: r4 =>
                if isCont c3 then
                  uChar ((((b - 0xF0) * 0x40 + (c1 - 0x80)) * 0x40 + (c2 - 0x80)) * 0x40
                    + (c3 - 0x80)) :: utf8LossyAux fuel r4
                else repl :: utf8LossyAux fuel (c3 :: r4)
            else repl :: utf8LossyAux fuel (c2 :: r3)
        else repl :: utf8LossyAux fuel (c1 :: r2)
    else repl :: utf8LossyAux fuel rest

/-- Embedding of `String::from_utf8_lossy(..).to_string()`. -/
def utf8Lossy (bs : List Nat) : String := String.mk (utf8LossyAux bs.length bs)

/-- Strict UTF-8 decoding, `none` on the first invalid sequence
(`String::from_utf8`).  Fuel as in `utf8LossyAux`. -/
def utf8StrictAux : Nat → List Nat → Option (List Char)
  | _, [] => some []
  | 0, _ :: _ => none
  | fuel + 1, b :: rest =>
    if b < 0x80 then (utf8StrictAux fuel rest).map (uChar b :: ·)
    else if b < 0xC2 then none
    else if b ≤ 0xDF then
      match rest with
      | [] => none
      | c1 :: r2 =>
        if isCont c1 then
          (utf8StrictAux fuel r2).map (uChar ((b - 0xC0) * 0x40 + (c1 - 0x80)) :: ·)
        else none
    else if b ≤ 0xEF then
      match rest with
      | [] => none
      | c1 :: r2 =>
        if cont3ok b c1 then
          match r2 with
          | [] => none
          | c2 :: r3 =>
            if isCont c2 then
              (utf8StrictAux fuel r3).map
                (uChar (((b - 0xE0) * 0x40 + (c1 - 0x80)) * 0x40 + (c2 - 0x80)) :: ·)
            else none
        else none
    else if b ≤ 0xF4 then
      match rest with
      | [] => none
      | c1 :: r2 =>
        if cont4ok b c1 then
          match r2 with
          | [] => none
          | c2 :: r3 =>
            if isCont c2 then
              match r3 with
              | [] => none
              | c3 :: r4 =>
                if isCont c3 then
                  (utf8StrictAux fuel r4).map
                    (uChar ((((b - 0xF0) * 0x40 + (c1 - 0x80)) * 0x40 + (c2 - 0x80)) * 0x40
                      + (c3 - 0x80)) :: ·)
                else none
            else none
        else none
    else none

/-- Embedding of `String::from_utf8`. -/
def utf8Strict (bs : List Nat) : Option String := (utf8StrictAux bs.length bs).map String.mk

/-- Embedding of `KernelParser::read_string`: a fixed window truncated at
the first NUL byte, decoded lossily. -/
def read_string (m : List Nat) (off len : Nat) : Option String :=
  if off + len ≤ m.length then
    some (utf8Lossy ((readBytes m off len).takeWhile (fun c => c ≠ 0)))
  else none

/-! ## Address translation (src/translation/mod.rs, src/memory/mod.rs) -/

/-- Embedding of `MemoryRegion` (LiME segment bounds are inclusive). -/
structure MemoryRegion where
  start : Nat
  end_ : Nat
  file_offset : Nat
deriving DecidableEq, Repr

/-- Embedding of `MemoryRegion::contains`. -/
def MemoryRegion.contains (r : MemoryRegion) (address : Nat) : Bool :=
  decide (r.start ≤ address) && decide (address ≤ r.end_)

/-- The `__START_KERNEL_map` constant from src/translation/mod.rs. -/
def KERNEL_MAP_BASE : Nat := 0xffffffff80000000

/-- Default direct-map base under 4-level paging. -/
def PAGE_OFFSET_4LEVEL : Nat := 0xffff880000000000

/-- Default direct-map base under 5-level paging. -/
def PAGE_OFFSET_5LEVEL : Nat := 0xffff888000000000

/-- One past the largest representable u64 value. -/
def M64 : Nat := 2 ^ 64

/-- Embedding of `MemoryTranslator`. -/
structure MemoryTranslator where
  regions : List MemoryRegion
  phys_base : Nat
  page_offset_4level : Nat
  page_offset_5level : Nat
deriving DecidableEq, Repr

/-- Embedding of `MemoryTranslator::new` (default scalars). -/
def MemoryTranslator.new (regions : List MemoryRegion) : MemoryTranslator :=
  { regions := regions
    phys_base := 0x1000000
    page_offset_4level := PAGE_OFFSET_4LEVEL
    page_offset_5level := PAGE_OFFSET_5LEVEL }

/-- Embedding of `MemoryTranslator::virtual_to_physical`.  The kernel-text
addition can wrap in a release build, hence the `% M64`; the direct-map
subtractions are guarded by the window tests and cannot underflow. -/
def MemoryTranslator.virtual_to_physical (t : MemoryTranslator) (virtual_addr : Nat) :
    Option Nat :=
  if KERNEL_MAP_BASE ≤ virtual_addr ∧ virtual_addr < 0xffffffffff000000 then
    some ((t.phys_base + (virtual_addr - KERNEL_MAP_BASE)) % M64)
  else if t.page_offset_5level ≤ virtual_addr ∧ virtual_addr < 0xffffc88000000000 then
    some (virtual_addr - t.page_offset_5level)
  else if t.page_offset_4level ≤ virtual_addr ∧ virtual_addr < 0xffffc80000000000 then
    some (virtual_addr - t.page_offset_4level)
  else none

/-- Embedding of `MemoryTranslator::virtual_to_file_offset`: compose the
virtual-to-physical step with the first region whose inclusive interval
contains the physical address. -/
def MemoryTranslator.virtual_to_file_offset (t : MemoryTranslator) (virtual_addr : Nat) :
    Option Nat :=
  (t.virtual_to_physical virtual_addr).bind fun physical_addr =>
    (t.regions.find? fun region =>
        decide (region.start ≤ physical_addr) && decide (physical_addr ≤ region.end_)).map
      fun region => (region.file_offset + (physical_addr - region.start)) % M64

/-- Embedding of the raw-dump fallback in main.rs (lines 104-110): a single
region whose `end` field is set to the whole file length. -/
def raw_dump_regions (file_len : Nat) : List MemoryRegion :=
  [{ start := 0, end_ := file_len, file_offset := 0 }]

/-! ## LiME header parsing (src/memory/mod.rs, `parse_lime_header`)

Release-build `u64`/`usize` semantics: the segment size is
`(end - start + 1)` computed with wraparound, and the running offset also
wraps.  The Rust `while` loop can then fail to terminate (for example a
header with `end = start - 33` makes the offset step a multiple of
`2 ^ 64`), so the embedding carries explicit fuel; exhausting the fuel
models a run that never finishes. -/

/-- The LiME magic, bytes `45 4D 69 4C` read as a little-endian u32. -/
def LIME_MAGIC : Nat := 0x4C694D45

/-- Size of one segment header. -/
def HEADER_SIZE : Nat := 32

/-- Wrapping u64 computation of `end - start + 1` for operands below 2^64. -/
def limeSegSize (start end_ : Nat) : Nat := (end_ + M64 - start + 1) % M64

/-- One pass of the header-walking loop, with fuel. -/
def parseLimeAux (m : List Nat) : Nat → Nat → Option (List MemoryRegion)
  | 0, _ => none
  | fuel + 1, offset =>
    if (offset + HEADER_SIZE) % M64 ≤ m.length then
      let magic := leVal (readBytes m offset 4)
      if magic = LIME_MAGIC then
        let start := leVal (readBytes m (offset + 8) 8)
        let end_ := leVal (readBytes m (offset + 16) 8)
        let region_size := limeSegSize start end_
        match parseLimeAux m fuel ((offset + HEADER_SIZE + region_size) % M64) with
        | some rs =>
          some ({ start := start, end_ := end_, file_offset := offset + HEADER_SIZE } :: rs)
        | none => none
      else some []
    else some []

/-- One-step unfolding of the header loop (definitional). -/
theorem parseLimeAux_succ (m : List Nat) (fuel offset : Nat) :
    parseLimeAux m (fuel + 1) offset =
      if (offset + HEADER_SIZE) % M64 ≤ m.length then
        if leVal (readBytes m offset 4) = LIME_MAGIC then
          match parseLimeAux m fuel ((offset + HEADER_SIZE +
              limeSegSize (leVal (readBytes m (offset + 8) 8))
                (leVal (readBytes m (offset + 16) 8))) % M64) with
          | some rs =>
            some ((⟨leVal (readBytes m (offset + 8) 8),
              leVal (readBytes m (offset + 16) 8), offset + HEADER_SIZE⟩ :
                MemoryRegion) :: rs)
          | none => none
        else some []
      else some [] := rfl

/-- Embedding of `MemoryMap::parse_lime_header`.  The fuel `m.length + 1`
is enough for every run that terminates (each step advances the offset by
at least 32 when segment sizes are well-formed).  The outer `none` marks a
run that never completes; the inner option is the source's return value. -/
def parse_lime_header (m : List Nat) : Option (Option (List MemoryRegion)) :=
  if m.length < HEADER_SIZE then some none
  else
    match parseLimeAux m (m.length + 1) 0 with
    | none => none
    | some regions => if regions = [] then some none else some (some regions)

/-! ## Rust string utilities used by the symbol loaders (src/symbols/mod.rs) -/

/-- The Unicode White_Space property, the predicate behind Rust
`char::is_whitespace` and `str::split_whitespace`. -/
def rustIsWhitespace (c : Char) : Bool :=
  let n := c.toNat
  (0x09 ≤ n && n ≤ 0x0D) || n = 0x20 || n = 0x85 || n = 0xA0 || n = 0x1680 ||
    (0x2000 ≤ n && n ≤ 0x200A) || n = 0x2028 || n = 0x2029 || n = 0x202F ||
    n = 0x205F || n = 0x3000

/-- Splitting a character list at whitespace, discarding empty chunks
(Rust `str::split_whitespace`). -/
def splitWhitespaceAux : List Char → List Char → List (List Char)
  | [], acc => if acc = [] then [] else [acc.reverse]
  | c :: cs, acc =>
    if rustIsWhitespace c then
      if acc = [] then splitWhitespaceAux cs []
      else acc.reverse :: splitWhitespaceAux cs []
    else splitWhitespaceAux cs (c :: acc)

/-- Embedding of `str::split_whitespace(..).collect()`. -/
def split_whitespace (s : String) : List String :=
  (splitWhitespaceAux s.data []).map String.mk

/-- Value of a hexadecimal digit, if the character is one. -/
def hexDigit (c : Char) : Option Nat :=
  let n := c.toNat
  if 0x30 ≤ n && n ≤ 0x39 then some (n - 0x30)
  else if 0x61 ≤ n && n ≤ 0x66 then some (n - 0x61 + 10)
  else if 0x41 ≤ n && n ≤ 0x46 then some (n - 0x41 + 10)
  else none

/-- Accumulate hexadecimal digits left to right. -/
def hexValAux : List Char → Nat → Option Nat
  | [], acc => some acc
  | c :: cs, acc =>
    match hexDigit c with
    | some d => hexValAux cs (acc * 16 + d)
    | none => none

/-- Embedding of `u64::from_str_radix(s, 16)`: an optional leading `+`,
then one or more hexadecimal digits; overflow past `u64::MAX` fails. -/
def from_str_radix16 (s : String) : Option Nat :=
  let ds := match s.data with
    | '+' :: rest => rest
    | l => l
  if ds = [] then none
  else (hexValAux ds 0).bind fun v => if v < M64 then some v else none

/-- Embedding of `str::trim_start_matches("0x")`: strip every leading
repetition of the two-character pattern. -/
def trimStartMatches0x : List Char → List Char
  | '0' :: 'x' :: rest => trimStartMatches0x rest
  | l => l

/-- Address parsing as done by both loaders:
`u64::from_str_radix(address_str.trim_start_matches("0x"), 16)`. -/
def parseSymAddress (s : String) : Option Nat :=
  from_str_radix16 (String.mk (trimStartMatches0x s.data))

/-- Value of a decimal digit, if the character is one. -/
def decDigit (c : Char) : Option Nat :=
  let n := c.toNat
  if 0x30 ≤ n && n ≤ 0x39 then some (n - 0x30) else none

/-- Accumulate decimal digits left to right. -/
def decValAux : List Char → Nat → Option Nat
  | [], acc => some acc
  | c :: cs, acc =>
    match decDigit c with
    | some d => decValAux cs (acc * 10 + d)
    | none => none

/-- Embedding of `str::parse::<u32>()`: an optional leading `+`, then one
or more decimal digits; overflow past `u32::MAX` fails. -/
def parseU32 (s : String) : Option Nat :=
  let ds := match s.data with
    | '+' :: rest => rest
    | l => l
  if ds = [] then none
  else (decValAux ds 0).bind fun v => if v < 2 ^ 32 then some v else none

/-- Splitting a character list at a separator character, keeping empty
chunks (Rust `str::split(char)`). -/
def splitCharAux (sep : Char) : List Char → List Char → List (List Char)
  | [], acc => [acc.reverse]
  | c :: cs, acc =>
    if c = sep then acc.reverse :: splitCharAux sep cs []
    else splitCharAux sep cs (c :: acc)

/-- Embedding of `str::split(sep).collect()` for a character separator. -/
def splitChar (s : String) (sep : Char) : List String :=
  (splitCharAux sep s.data []).map String.mk

/-- Does `pat` occur at the head of `l`? -/
def headMatches : List Nat → List Nat → Bool
  | [], _ => true
  | _ :: _, [] => false
  | p :: ps, h :: hs => p = h && headMatches ps hs

/-- First occurrence position of the (non-empty) byte pattern `pat` in
`hay` (Rust `memmem::find`). -/
def findSub (pat hay : List Nat) : Option Nat :=
  match hay with
  | [] => if pat = [] then some 0 else none
  | _ :: rest =>
    if headMatches pat hay then some 0
    else (findSub pat rest).map (· + 1)

/-- Positions of the successive non-overlapping occurrences of a
non-empty byte pattern (Rust `memmem::Finder::find_iter`).  The fuel is a
structural-recursion device; fuel equal to the haystack length (as the
wrapper passes) never runs out. -/
def findIterAux (pat : List Nat) : Nat → List Nat → Nat → List Nat
  | _, [], _ => []
  | 0, _ :: _, _ => []
  | fuel + 1, h :: hs, pos =>
    if headMatches pat (h :: hs) then
      pos :: findIterAux pat fuel ((h :: hs).drop (max pat.length 1))
        (pos + max pat.length 1)
    else findIterAux pat fuel hs (pos + 1)

/-- All non-overlapping occurrence positions of `pat` in `hay`. -/
def find_iter (pat hay : List Nat) : List Nat := findIterAux pat hay.length hay 0

/-- Splitting a character list at the non-overlapping occurrences of a
non-empty pattern (Rust `str::split(&str)`), left to right.  Fuel as in
`findIterAux`. -/
def splitPatternAux (pat : List Char) : Nat → List Char → List Char → List (List Char)
  | _, [], acc => [acc.reverse]
  | 0, _ :: _, acc => [acc.reverse]
  | fuel + 1, h :: hs, acc =>
    if pat.isPrefixOf (h :: hs) then
      acc.reverse :: splitPatternAux pat fuel ((h :: hs).drop (max pat.length 1)) []
    else splitPatternAux pat fuel hs (h :: acc)

/-- Embedding of `str::split(pattern).collect()` for a string pattern. -/
def splitPattern (s pat : String) : List String :=
  (splitPatternAux pat.data s.data.length s.data []).map String.mk

/-- Rust `str::trim`: strip leading and trailing whitespace characters. -/
def rustTrim (s : String) : String :=
  String.mk (((s.data.dropWhile rustIsWhitespace).reverse.dropWhile rustIsWhitespace).reverse)

/-- Rust `str::trim_end_matches('\0')`: drop every trailing NUL. -/
def trimEndNul (s : String) : String :=
  String.mk ((s.data.reverse.dropWhile (fun c => c = '\x00')).reverse)

/-- Byte length of a Rust string (`str::len`): the UTF-8 size of its
scalar sequence. -/
def rsLen (s : String) : Nat := s.data.foldl (fun n c => n + c.utf8Size) 0

/-- Rust `str::starts_with` for a literal pattern. -/
def strStartsWith (s pre : String) : Bool := pre.data.isPrefixOf s.data

/-! ## Kernel version and the per-version offset table (src/core/offsets.rs) -/

/-- Embedding of `KernelVersion`. -/
structure KernelVersion where
  major : Nat
  minor : Nat
  patch : Nat
  extra : String
deriving DecidableEq, Repr

/-- Rows of the per-version offset table, as loaded by
`StructureOffsets::load_offsets_*`.  Each row is the pair of `task_struct`
and `cred` field maps. -/
def versionTaskRow (pid comm parent cred state tasks start_time : Nat) :
    List (String × Nat) :=
  [("pid", pid), ("comm", comm), ("parent", parent), ("cred", cred),
   ("state", state), ("tasks", tasks), ("start_time", start_time)]

/-- The `cred` row shared by every version. -/
def versionCredRow : List (String × Nat) := [("uid", 0x0), ("gid", 0x4)]

/-- Embedding of `StructureOffsets::load_offsets_for_version` followed by
`get_offset`: the table keyed by detected major/minor. -/
def structureOffsetsFor (version : KernelVersion) :
    List (String × List (String × Nat)) :=
  let task :=
    if version.major = 4 ∧ version.minor = 19 then
      versionTaskRow 0x318 0x498 0x310 0x440 0x0 0x0 0x300
    else if version.major = 5 ∧ version.minor = 4 then
      versionTaskRow 0x320 0x4a0 0x318 0x448 0x0 0x0 0x308
    else if version.major = 5 ∧ version.minor = 15 then
      versionTaskRow 0x328 0x4a8 0x320 0x450 0x0 0x0 0x310
    else if version.major = 6 ∧ version.minor = 1 then
      versionTaskRow 0x330 0x4b0 0x328 0x458 0x0 0x0 0x318
    else
      versionTaskRow 0x328 0x4a8 0x320 0x450 0x0 0x0 0x310
  [("task_struct", task), ("cred", versionCredRow)]

/-- Embedding of `StructureOffsets::get_offset` on the table built by
`StructureOffsets::for_kernel`. -/
def offsetsGetOffset (version : KernelVersion) (struct_name field_name : String) :
    Option Nat :=
  (structureOffsetsFor version).lookup struct_name |>.bind fun row =>
    row.lookup field_name

/-! ## Symbol resolver state and field-offset precedence (src/symbols/mod.rs) -/

/-- Embedding of `SymbolResolver`: the symbol catalogue and the debug-info
structure-offset catalogue (keys are `"struct::field"`). -/
structure SymbolResolver where
  symbols : List (String × Nat)
  struct_offsets : List (String × Nat)
deriving DecidableEq, Repr

/-- Embedding of `SymbolResolver::get_symbol_address`. -/
def SymbolResolver.get_symbol_address (r : SymbolResolver) (name : String) : Option Nat :=
  r.symbols.lookup name

/-- Hard-coded fallback constants, step 3 of
`SymbolResolver::get_struct_field_offset`. -/
def hardcodedFallback (struct_name field_name : String) : Option Nat :=
  if struct_name = "task_struct" ∧ field_name = "pid" then some 0x328
  else if struct_name = "task_struct" ∧ field_name = "comm" then some 0x4a8
  else if struct_name = "task_struct" ∧ field_name = "parent" then some 0x320
  else if struct_name = "task_struct" ∧ field_name = "start_time" then some 0x310
  else if struct_name = "task_struct" ∧ field_name = "cred" then some 0x450
  else if struct_name = "task_struct" ∧ field_name = "state" then some 0x0
  else if struct_name = "task_struct" ∧ field_name = "tasks" then some 0x0
  else if struct_name = "cred" ∧ field_name = "uid" then some 0x0
  else if struct_name = "cred" ∧ field_name = "gid" then some 0x4
  else none

/-- Embedding of `SymbolResolver::get_struct_field_offset`: debug-info
catalogue first (with the `state` → `__state` alias), then the
per-version table, then the hard-coded fallbacks. -/
def SymbolResolver.get_struct_field_offset (r : SymbolResolver)
    (struct_name field_name : String) (kernel_version : Option KernelVersion) :
    Option Nat :=
  let key := struct_name ++ "::" ++ field_name
  match r.struct_offsets.lookup key with
  | some offset => some offset
  | none =>
    match
      (if struct_name = "task_struct" ∧ field_name = "state" then
        r.struct_offsets.lookup "task_struct::__state"
      else none) with
    | some offset => some offset
    | none =>
      match kernel_version with
      | some version =>
        match offsetsGetOffset version struct_name field_name with
        | some offset => some offset
        | none => hardcodedFallback struct_name field_name
      | none => hardcodedFallback struct_name field_name

/-- Embedding of `SymbolResolver::get_struct_field_offset_fallback`. -/
def SymbolResolver.get_struct_field_offset_fallback (r : SymbolResolver)
    (struct_name field_name : String) : Option Nat :=
  r.get_struct_field_offset struct_name field_name none

/-! ## Symbol-listing loaders (src/symbols/mod.rs lines 387-455)

File I/O is out of scope; the embedding processes the list of text lines.
`add_symbol` is a `HashMap` insert, modelled by consing so that
`List.lookup` sees the most recent binding. -/

/-- Embedding of `SymbolResolver::add_symbol`. -/
def add_symbol (symbols : List (String × Nat)) (name : String) (address : Nat) :
    List (String × Nat) :=
  (name, address) :: symbols

/-- Processing of one line by `load_system_map`. -/
def systemMapLine (symbols : List (String × Nat)) (line : String) :
    List (String × Nat) :=
  let parts := split_whitespace line
  if parts.length ≥ 3 then
    let address_str := parts.getD 0 ""
    let symbol_type := parts.getD 1 ""
    let symbol_name := parts.getD 2 ""
    if rsLen symbol_type = 1 then
      match parseSymAddress address_str with
      | some address => add_symbol symbols symbol_name address
      | none => symbols
    else symbols
  else symbols

/-- Embedding of `SymbolResolver::load_system_map` over the file's lines. -/
def load_system_map (lines : List String) : List (String × Nat) :=
  lines.foldl systemMapLine []

/-- Processing of one line by `load_kallsyms`: the address is parsed
first, zero addresses are skipped (whether or not the line carries a
module suffix), and the one-letter type check only gates insertion. -/
def kallsymsLine (symbols : List (String × Nat)) (line : String) :
    List (String × Nat) :=
  let parts := split_whitespace line
  if parts.length ≥ 3 then
    let address_str := parts.getD 0 ""
    let symbol_type := parts.getD 1 ""
    let symbol_name := parts.getD 2 ""
    match parseSymAddress address_str with
    | some address =>
      if address = 0 then
        -- both arms of the module-suffix test in the source skip the line
        symbols
      else if rsLen symbol_type = 1 then add_symbol symbols symbol_name address
      else symbols
    | none => symbols
  else symbols

/-- Embedding of `SymbolResolver::load_kallsyms` over the file's lines. -/
def load_kallsyms (lines : List String) : List (String × Nat) :=
  lines.foldl kallsymsLine []

/-! ## Kernel-version detection (src/symbols/mod.rs lines 663-975) -/

/-- The bytes of the banner pattern `"Linux version "`. -/
def linuxVersionBytes : List Nat :=
  [0x4C, 0x69, 0x6E, 0x75, 0x78, 0x20, 0x76, 0x65, 0x72, 0x73, 0x69, 0x6F, 0x6E, 0x20]

/-- Embedding of the free function `parse_kernel_version`. -/
def parse_kernel_version (version_str : String) : Option KernelVersion :=
  match (split_whitespace version_str).head? with
  | none => none
  | some version_clean =>
    let parts := splitChar version_clean '.'
    if parts.length ≥ 2 then
      match parseU32 (parts.getD 0 "") with
      | none => none
      | some major =>
        match parseU32 (parts.getD 1 "") with
        | none => none
        | some minor =>
          if parts.length ≥ 3 then
            let patch_part := parts.getD 2 ""
            let patch_extra := splitChar patch_part '-'
            let patch := (parseU32 (patch_extra.getD 0 "")).getD 0
            let extra :=
              if patch_extra.length > 1 then
                "-" ++ String.intercalate "-" (patch_extra.drop 1)
              else ""
            some { major := major, minor := minor, patch := patch, extra := extra }
          else
            some { major := major, minor := minor, patch := 0, extra := "" }
    else none

/-- Embedding of `SymbolResolver::detect_kernel_version`: find the
`"Linux version "` banner, cut the line, split on the pattern and parse
the second chunk. -/
def detect_kernel_version (mapped : List Nat) : Option KernelVersion :=
  match findSub linuxVersionBytes mapped with
  | none => none
  | some match_pos =>
    let slice := mapped.drop match_pos
    let end_pos := (slice.findIdx? (fun c => c = 10 || c = 13)).getD slice.length
    let banner_str := utf8Lossy (slice.take end_pos)
    match (splitPattern banner_str "Linux version ").get? 1 with
    | some version_part => parse_kernel_version version_part
    | none => none

/-! ## Stage A: KASLR detection and the swapper fallback
(src/symbols/mod.rs lines 84-345) -/

/-- Wrapping u64 subtraction for operands below 2^64. -/
def wsub64 (a b : Nat) : Nat := (a + M64 - b % M64) % M64

/-- Embedding of `SymbolResolver::calculate_phys_base_candidates`. -/
def calculate_phys_base_candidates (r : SymbolResolver) : List Nat :=
  match r.get_symbol_address "_text" with
  | none => []
  | some text_vaddr =>
    let c1 : List Nat :=
      if KERNEL_MAP_BASE ≤ text_vaddr ∧ text_vaddr - KERNEL_MAP_BASE ≤ 0x1000000 then
        [0x1000000 - (text_vaddr - KERNEL_MAP_BASE)]
      else []
    let c2 := c1 ++ [0x1000000]
    let c3 := if 0 ∈ c2 then c2 else c2 ++ [0]
    if 0xffffffff81000000 ≤ text_vaddr ∧
        0x1000000 + (text_vaddr - 0xffffffff81000000) < M64 then
      let pb := 0x1000000 + (text_vaddr - 0xffffffff81000000)
      if pb ∈ c3 then c3 else c3 ++ [pb]
    else c3

/-- Low end of the canonical kernel-pointer window used by Stage A. -/
def MIN_KERNEL_ADDR : Nat := 0xffff800000000000

/-- High end of the canonical kernel-pointer window used by Stage A. -/
def MAX_KERNEL_ADDR : Nat := 0xfffffffffff00000

/-- The ten sampled word offsets of the zero-page rejection check. -/
def sampleOffsets : List Nat := [0, 8, 16, 24, 32, 40, 48, 56, 64, 72]

/-- The bytes of the pattern `"swapper"`. -/
def swapperBytes : List Nat := [0x73, 0x77, 0x61, 0x70, 0x70, 0x65, 0x72]

/-- The candidate shifts `-512 ..= 512` tried by `detect_kaslr_offset`. -/
def kaslrShifts : List Int := (List.range 1025).map (fun i => (i : Int) - 512)

/-- One iteration of the KASLR shift loop in
`SymbolResolver::detect_kaslr_offset`: translate the shifted address and
apply the pid-0, non-zero-words, canonical-`tasks.next` and
`swapper`-comm checks. -/
def kaslrTryShift (memory : List Nat) (translator : MemoryTranslator)
    (static_init_task pid_offset tasks_offset comm_offset : Nat) (kaslr_offset : Int) :
    Option (Int × Nat) :=
  let offset_bytes : Int := kaslr_offset * 0x100000
  let test_addr : Nat := (((static_init_task : Int) + offset_bytes).emod (M64 : Int)).toNat
  match translator.virtual_to_file_offset test_addr with
  | none => none
  | some file_offset =>
    if file_offset + pid_offset + 4 ≤ memory.length then
      match read_i32 memory (file_offset + pid_offset) with
      | none => none
      | some pid =>
        if pid = 0 then
          let non_zero_count := sampleOffsets.countP fun sample_off =>
            decide (file_offset + sample_off + 8 ≤ memory.length) &&
              decide (leVal (readBytes memory (file_offset + sample_off) 8) ≠ 0)
          if non_zero_count ≥ 3 then
            if file_offset + tasks_offset + 8 ≤ memory.length then
              match read_u64 memory (file_offset + tasks_offset) with
              | none => none
              | some tasks_next =>
                if tasks_next = 0 then none
                else if tasks_next < MIN_KERNEL_ADDR ∨ MAX_KERNEL_ADDR ≤ tasks_next then none
                else if tasks_next = 0xffffffffffffffff ∨ tasks_next = 0xfffffffffffffffe then
                  none
                else
                  let comm := (read_string memory (file_offset + comm_offset) 16).getD ""
                  let comm_trimmed := trimEndNul comm
                  if strStartsWith comm_trimmed "swapper" then some (offset_bytes, file_offset)
                  else none
            else none
          else none
        else none
    else none

/-- Embedding of `SymbolResolver::find_init_task_by_swapper_string`: scan
for the byte string `"swapper"`, take each match as a `comm` field, and
accept the first base whose pid reads 0 and whose `tasks.next` is in the
canonical window and differs from the all-ones sentinel. -/
def find_init_task_by_swapper_string (r : SymbolResolver) (memory : List Nat) :
    Option Nat :=
  let comm_offset := (r.get_struct_field_offset_fallback "task_struct" "comm").getD 0xcf0
  let pid_offset := (r.get_struct_field_offset_fallback "task_struct" "pid").getD 0xad0
  let tasks_offset := (r.get_struct_field_offset_fallback "task_struct" "tasks").getD 0xa00
  (find_iter swapperBytes memory).findSome? fun match_pos =>
    if match_pos < comm_offset then none
    else
      let potential_task_struct := match_pos - comm_offset
      if potential_task_struct + pid_offset + 4 > memory.length then none
      else
        match read_i32 memory (potential_task_struct + pid_offset) with
        | none => none
        | some pid =>
          if pid = 0 then
            if potential_task_struct + tasks_offset + 8 ≤ memory.length then
              match read_u64 memory (potential_task_struct + tasks_offset) with
              | none => none
              | some tasks_next =>
                if MIN_KERNEL_ADDR ≤ tasks_next ∧ tasks_next < MAX_KERNEL_ADDR ∧
                    tasks_next ≠ 0xffffffffffffffff then
                  some potential_task_struct
                else none
            else none
          else none

/-- Embedding of `SymbolResolver::detect_kaslr_offset`: try every 1-MiB
shift in `-512 ..= 512`, and on full failure fall back to the
`"swapper"`-string scan, reporting shift 0. -/
def detect_kaslr_offset (r : SymbolResolver) (memory : List Nat)
    (translator : MemoryTranslator) : Option (Int × Nat) :=
  match r.get_symbol_address "init_task" with
  | none => none
  | some static_init_task =>
    let pid_offset := (r.get_struct_field_offset_fallback "task_struct" "pid").getD 0xad0
    let tasks_offset := (r.get_struct_field_offset_fallback "task_struct" "tasks").getD 0xa00
    let comm_offset := (r.get_struct_field_offset_fallback "task_struct" "comm").getD 0xcf0
    match kaslrShifts.findSome?
        (kaslrTryShift memory translator static_init_task pid_offset tasks_offset
          comm_offset) with
    | some res => some res
    | none =>
      match find_init_task_by_swapper_string r memory with
      | some init_task_offset => some (0, init_task_offset)
      | none => none

/-! ## The IEEE-754 step of `validate_process_info` (src/kernel/mod.rs)

The source computes `(comm.len() as f64 * ratio) as usize` with `ratio`
either `0.3` or `0.5`.  `0.3_f64` is exactly `5404319552844595 / 2 ^ 54`
and `0.5` is exact, so the whole computation is reproduced by exact
round-to-nearest-even arithmetic on significands followed by the floor of
the scaled product (`as usize` truncates toward zero and saturates). -/

/-- Bit length with explicit fuel (kernel-reducible). -/
def bitLenAux : Nat → Nat → Nat
  | 0, _ => 0
  | fuel + 1, n => if n = 0 then 0 else bitLenAux fuel (n / 2) + 1

/-- Number of binary digits of a natural number (`0` has none). -/
def bitLen (n : Nat) : Nat := bitLenAux n n

/-- Round a natural number to 53 significant bits, ties to even: the
rounding IEEE-754 applies to every f64 operation result. -/
def roundNE53 (p : Nat) : Nat :=
  if bitLen p ≤ 53 then p
  else
    let e := bitLen p - 53
    let q := p / 2 ^ e
    let r := p % 2 ^ e
    let half := 2 ^ (e - 1)
    let q' := if half < r then q + 1 else if r < half then q else if q % 2 = 0 then q else q + 1
    q' * 2 ^ e

/-- The significand of `0.3_f64`, scaled by `2 ^ 54`. -/
def ratio03Num : Nat := 5404319552844595

/-- Exact value of Rust `(len as f64 * (m / 2 ^ shift)) as usize`: convert
`len` (one rounding), multiply (one rounding), truncate, saturate. -/
def f64FloorMulRatio (len m shift : Nat) : Nat :=
  min (roundNE53 (roundNE53 len * m) / 2 ^ shift) (M64 - 1)

/-! ## Process records, extraction, validation and the walker
(src/kernel/mod.rs, src/kernel/process_extractor.rs) -/

/-- Embedding of `ProcessInfo`. -/
structure ProcessInfo where
  offset : Nat
  pid : Int
  comm : String
  ppid : Int
  start_time : Nat
  uid : Nat
  gid : Nat
  state : String
  cmdline : String
deriving DecidableEq, Repr

/-- The bytes the command-line reader collects: up to `arg_len` bytes from
`args_file_offset`, stopping at the end of the buffer, each NUL replaced
by a space. -/
def collectCmdlineBytes (mapped : List Nat) (args_file_offset arg_len : Nat) : List Nat :=
  ((List.range arg_len).takeWhile (fun i => args_file_offset + i < mapped.length)).map
    fun i =>
      let byte := byteAt mapped (args_file_offset + i)
      if byte = 0 then 0x20 else byte

/-- Embedding of `ProcessExtractor::extract_process_info`.  Every path of
the source returns `Ok`, so the embedding returns the record directly. -/
def extract_process_info (mapped : List Nat) (translator : MemoryTranslator)
    (r : SymbolResolver) (task_struct_offset : Nat) : ProcessInfo :=
  let kernel_version := detect_kernel_version mapped
  let pid_offset := (r.get_struct_field_offset "task_struct" "pid" kernel_version).getD 0x328
  let comm_offset := (r.get_struct_field_offset "task_struct" "comm" kernel_version).getD 0x4a8
  let comm_size := 16
  let parent_offset :=
    (r.get_struct_field_offset "task_struct" "parent" kernel_version).getD 0x320
  let start_time_offset :=
    (r.get_struct_field_offset "task_struct" "start_time" kernel_version).getD 0x310
  let cred_offset := (r.get_struct_field_offset "task_struct" "cred" kernel_version).getD 0x450
  let state_offset := (r.get_struct_field_offset "task_struct" "state" kernel_version).getD 0x0
  let pid := (read_i32 mapped (task_struct_offset + pid_offset)).getD 0
  let comm := (read_string mapped (task_struct_offset + comm_offset) comm_size).getD "<unknown>"
  let parent_ptr := (read_u64 mapped (task_struct_offset + parent_offset)).getD 0
  let ppid : Int :=
    if parent_ptr ≠ 0 then
      match translator.virtual_to_file_offset parent_ptr with
      | some parent_file_offset => (read_i32 mapped (parent_file_offset + pid_offset)).getD 0
      | none => 0
    else 0
  let start_time := (read_u64 mapped (task_struct_offset + start_time_offset)).getD 0
  let cred_ptr := (read_u64 mapped (task_struct_offset + cred_offset)).getD 0
  let uidgid : Nat × Nat :=
    if cred_ptr ≠ 0 then
      match translator.virtual_to_file_offset cred_ptr with
      | some cred_file_offset =>
        let uid_offset := (r.get_struct_field_offset "cred" "uid" kernel_version).getD 0x0
        let gid_offset := (r.get_struct_field_offset "cred" "gid" kernel_version).getD 0x4
        ((read_u32 mapped (cred_file_offset + uid_offset)).getD 0,
          (read_u32 mapped (cred_file_offset + gid_offset)).getD 0)
      | none => (0, 0)
    else (0, 0)
  let state_val := (read_i32 mapped (task_struct_offset + state_offset)).getD 0
  let state :=
    if state_val = 0 then "Running"
    else if state_val = 1 then "Sleeping"
    else if state_val = 2 then "Stopped"
    else if state_val = 3 then "Zombie"
    else if state_val = 4 then "Tracing Stop"
    else "Unknown (" ++ toString state_val ++ ")"
  let mm_offset := (r.get_struct_field_offset "task_struct" "mm" kernel_version).getD 0x350
  let mm_ptr := (read_u64 mapped (task_struct_offset + mm_offset)).getD 0
  let cmdline :=
    if mm_ptr ≠ 0 then
      match translator.virtual_to_file_offset mm_ptr with
      | some mm_file_offset =>
        let arg_start_offset :=
          (r.get_struct_field_offset "mm_struct" "arg_start" kernel_version).getD 0x108
        let arg_end_offset :=
          (r.get_struct_field_offset "mm_struct" "arg_end" kernel_version).getD 0x110
        let arg_start := (read_u64 mapped (mm_file_offset + arg_start_offset)).getD 0
        let arg_end := (read_u64 mapped (mm_file_offset + arg_end_offset)).getD 0
        if arg_start ≠ 0 ∧ arg_start < arg_end then
          let arg_len := arg_end - arg_start
          if 0 < arg_len ∧ arg_len ≤ 4096 then
            match translator.virtual_to_file_offset arg_start with
            | some args_file_offset =>
              match utf8Strict (collectCmdlineBytes mapped args_file_offset arg_len) with
              | some s =>
                let trimmed := rustTrim s
                if trimmed ≠ "" then trimmed else "[cmdline not available]"
              | none => "[cmdline not available]"
            | none => "[cmdline not in memory]"
          else "[invalid cmdline length]"
        else "[no cmdline]"
      | none => "[mm_struct not in memory]"
    else "[kernel thread]"
  { offset := task_struct_offset
    pid := pid
    comm := comm
    ppid := ppid
    start_time := start_time
    uid := uidgid.1
    gid := uidgid.2
    state := state
    cmdline := cmdline }

/-- Embedding of `validate_process_info` (src/kernel/mod.rs lines
169-248).  The printable count takes the ASCII non-control characters
(`is_ascii && !is_control`, that is `0x20 ..= 0x7E`); the threshold is
the `(comm.len() as f64 * ratio) as usize` computation. -/
def validate_process_info (proc : ProcessInfo) : Bool :=
  if proc.pid < 0 ∨ proc.pid > 4194304 then false
  else if proc.pid = 0 then true
  else if proc.comm = "" then false
  else if (proc.comm.data.filter fun c =>
        decide (0x20 ≤ c.toNat) && decide (c.toNat ≤ 0x7E)).length <
      (if proc.pid < 300 then f64FloorMulRatio (rsLen proc.comm) ratio03Num 54
        else f64FloorMulRatio (rsLen proc.comm) 1 1) then false
  else if proc.uid > 65535 ∨ proc.gid > 65535 then false
  else true

/-- Why the walker loop of `ProcessExtractor::walk_process_list` stopped. -/
inductive StopReason where
  | maxIterations
  | offsetBeyondMap
  | revisited
  | readNextFailed
  | nullNext
  | untranslatable
  | cycleClosed
  | nextBeyondMap
deriving DecidableEq, Repr

/-- The loop of `walk_process_list`.  The fuel is the remaining iteration
budget (`max_iterations - iterations` in the source, initially 10000); the
accumulators are the visited-offset set (most recent first) and the
emitted records in order. -/
def walkAux (mapped : List Nat) (translator : MemoryTranslator) (r : SymbolResolver)
    (init_task_offset tasks_offset : Nat) :
    Nat → Nat → List Nat → List ProcessInfo → List ProcessInfo × List Nat × StopReason
  | 0, _, visited, processes => (processes, visited, .maxIterations)
  | fuel + 1, current_offset, visited, processes =>
    if mapped.length ≤ current_offset then (processes, visited, .offsetBeyondMap)
    else if current_offset ∈ visited then (processes, visited, .revisited)
    else
      let visited' := current_offset :: visited
      let process_info := extract_process_info mapped translator r current_offset
      let processes' :=
        if validate_process_info process_info then processes ++ [process_info] else processes
      match read_u64 mapped (current_offset + tasks_offset) with
      | none => (processes', visited', .readNextFailed)
      | some next_ptr =>
        if next_ptr = 0 then (processes', visited', .nullNext)
        else
          match translator.virtual_to_file_offset next_ptr with
          | none => (processes', visited', .untranslatable)
          | some next_list_head_offset =>
            let next_offset := next_list_head_offset - tasks_offset
            if next_offset = init_task_offset then (processes', visited', .cycleClosed)
            else if mapped.length ≤ next_offset then (processes', visited', .nextBeyondMap)
            else
              walkAux mapped translator r init_task_offset tasks_offset fuel next_offset
                visited' processes'

/-- The full walk: resolve `tasks_offset` (with the detected kernel
version) and run the loop from the anchor with the 10000-iteration
budget. -/
def walkModel (mapped : List Nat) (translator : MemoryTranslator) (r : SymbolResolver)
    (init_task_offset : Nat) : List ProcessInfo × List Nat × StopReason :=
  let kernel_version := detect_kernel_version mapped
  let tasks_offset :=
    (r.get_struct_field_offset "task_struct" "tasks" kernel_version).getD 0x0
  walkAux mapped translator r init_task_offset tasks_offset 10000 init_task_offset [] []

/-- The error kinds of src/error.rs that the embedded pipeline can
signal. -/
inductive AnalysisError where
  | SymbolNotFound (msg : String)
  | ParseError (msg : String)
deriving DecidableEq, Repr

/-- Embedding of `ProcessExtractor::walk_process_list` with the source's
`Result` signature: every path of the loop ends in `Ok(processes)`. -/
def walk_process_list (mapped : List Nat) (translator : MemoryTranslator)
    (r : SymbolResolver) (init_task_offset : Nat) :
    Except AnalysisError (List ProcessInfo) :=
  Except.ok (walkModel mapped translator r init_task_offset).1

/-! ## The boot-strap driver in main.rs (lines 174-303) -/

/-- Embedding of STEP 1 of `main` (lines 177-183): a failed KASLR
detection is turned into a fatal `SymbolNotFound` error by `?`. -/
def runStageA (r : SymbolResolver) (mapped : List Nat) (translator : MemoryTranslator) :
    Except AnalysisError (Int × Nat) :=
  match detect_kaslr_offset r mapped translator with
  | some res => Except.ok res
  | none =>
    Except.error (AnalysisError.SymbolNotFound
      "Could not detect KASLR offset - init_task with PID 0 not found.")

/-- Embedding of STEP 2 of `main` (lines 186-303): the `phys_base` the
translator holds when the stage ends.  Every path of the source falls
through to the next step with some value - candidate validation, the
region derivation, the first candidate, or the untouched default. -/
def stageBPhysBase (r : SymbolResolver) (mapped : List Nat) (translator : MemoryTranslator)
    (init_task_offset : Nat) : Nat :=
  let phys_base_candidates := calculate_phys_base_candidates r
  if phys_base_candidates.isEmpty then translator.phys_base
  else
    match r.get_symbol_address "init_task" with
    | some init_task_vaddr =>
      let pid_offset := (r.get_struct_field_offset "task_struct" "pid" none).getD 2384
      match phys_base_candidates.findSome? (fun candidate =>
        let t' := { translator with phys_base := candidate }
        match t'.virtual_to_file_offset init_task_vaddr with
        | some translated_offset =>
          let offset_diff :=
            if init_task_offset < translated_offset then translated_offset - init_task_offset
            else init_task_offset - translated_offset
          if offset_diff < 0x1000 then
            if init_task_offset + pid_offset + 4 ≤ mapped.length then
              if toI32 (leVal (readBytes mapped (init_task_offset + pid_offset) 4)) = 0 then
                some candidate
              else none
            else none
          else none
        | none => none) with
      | some candidate => candidate
      | none =>
        match translator.regions.findSome? (fun region =>
          if region.file_offset ≤ init_task_offset ∧
              init_task_offset <
                (region.file_offset + (region.end_ + M64 - region.start) % M64) % M64 then
            let offset_in_region := init_task_offset - region.file_offset
            let physical_addr := (region.start + offset_in_region) % M64
            some (wsub64 physical_addr (wsub64 init_task_vaddr KERNEL_MAP_BASE))
          else none) with
        | some calculated_phys_base => calculated_phys_base
        | none => phys_base_candidates.headD 0
    | none => phys_base_candidates.headD 0

/-- Stages A and B chained as in `main`: only Stage A can fail. -/
def runStageAB (r : SymbolResolver) (mapped : List Nat) (translator : MemoryTranslator) :
    Except AnalysisError (Nat × Nat) :=
  match runStageA r mapped translator with
  | Except.error e => Except.error e
  | Except.ok (_, init_task_offset) =>
    Except.ok (init_task_offset, stageBPhysBase r mapped translator init_task_offset)

/-! ## Analysis helpers for the theorems -/

/-- Which branch of `virtual_to_physical` fires for `v`, if any: `0` the
kernel-text window, `1` the 5-level direct map, `2` the 4-level direct
map.  This is the discriminator of the if-chain in the source. -/
def windowIndex (t : MemoryTranslator) (v : Nat) : Option Nat :=
  if KERNEL_MAP_BASE ≤ v ∧ v < 0xffffffffff000000 then some 0
  else if t.page_offset_5level ≤ v ∧ v < 0xffffc88000000000 then some 1
  else if t.page_offset_4level ≤ v ∧ v < 0xffffc80000000000 then some 2
  else none

/-! ## Claim C2: the translation windows -/

/-- A translator whose 5-level scalar was moved up, as Stage C is allowed
to do, exposing the hard-coded upper window bounds. -/
def translatorC2 : MemoryTranslator :=
  { regions := []
    phys_base := 0x1000000
    page_offset_4level := PAGE_OFFSET_4LEVEL
    page_offset_5level := 0xffff900000000000 }

/-- C2, counterexample.  With `page_offset_5level = 0xffff_9000_0000_0000`
the address `0xffff_c900_0000_0000` lies in the claimed window
`[page_offset_5level, page_offset_5level + 64 TiB)`, yet
`virtual_to_physical` fails on it: the source compares against the
hard-coded bound `0xffff_c880_0000_0000`, not against
`page_offset_5level + 64 TiB`. -/
theorem c2_counterexample :
    translatorC2.virtual_to_physical 0xffffc90000000000 = none ∧
    translatorC2.page_offset_5level ≤ 0xffffc90000000000 ∧
    (0xffffc90000000000 : Nat) < translatorC2.page_offset_5level + 64 * 2 ^ 40 := by
  refine ⟨by decide, by decide, by decide⟩

/-- C2, amended.  Virtual-to-physical translation succeeds exactly when
the address lies in the kernel-text window
`[0xffff_ffff_8000_0000, 0xffff_ffff_ff00_0000)` (result
`phys_base + (v - 0xffff_ffff_8000_0000)` mod 2^64), or else in
`[page_offset_5level, 0xffff_c880_0000_0000)` (result
`v - page_offset_5level`), or else in
`[page_offset_4level, 0xffff_c800_0000_0000)` (result
`v - page_offset_4level`); the upper window bounds are the hard-coded
constants, not `base + 64 TiB`, and the 5-level window is checked before
the 4-level window. -/
theorem virtual_to_physical_windows (t : MemoryTranslator) (v p : Nat) :
    t.virtual_to_physical v = some p ↔
      (KERNEL_MAP_BASE ≤ v ∧ v < 0xffffffffff000000 ∧
        p = (t.phys_base + (v - KERNEL_MAP_BASE)) % M64) ∨
      (¬(KERNEL_MAP_BASE ≤ v ∧ v < 0xffffffffff000000) ∧
        t.page_offset_5level ≤ v ∧ v < 0xffffc88000000000 ∧
        p = v - t.page_offset_5level) ∨
      (¬(KERNEL_MAP_BASE ≤ v ∧ v < 0xffffffffff000000) ∧
        ¬(t.page_offset_5level ≤ v ∧ v < 0xffffc88000000000) ∧
        t.page_offset_4level ≤ v ∧ v < 0xffffc80000000000 ∧
        p = v - t.page_offset_4level) := by
  constructor
  · intro h
    unfold MemoryTranslator.virtual_to_physical at h
    split_ifs at h with h1 h2 h3
    · simp only [Option.some.injEq] at h
      exact Or.inl ⟨h1.1, h1.2, h.symm⟩
    · simp only [Option.some.injEq] at h
      exact Or.inr (Or.inl ⟨h1, h2.1, h2.2, h.symm⟩)
    · simp only [Option.some.injEq] at h
      exact Or.inr (Or.inr ⟨h1, h2, h3.1, h3.2, h.symm⟩)
  · intro h
    unfold MemoryTranslator.virtual_to_physical
    rcases h with ⟨ha, hb, hp⟩ | ⟨hn, ha, hb, hp⟩ | ⟨hn1, hn2, ha, hb, hp⟩
    · rw [if_pos ⟨ha, hb⟩, hp]
    · rw [if_neg hn, if_pos ⟨ha, hb⟩, hp]
    · rw [if_neg hn1, if_neg hn2, if_pos ⟨ha, hb⟩, hp]

/-! ## Claim C6: the raw-dump region -/

/-- C6.  For a raw dump the source builds the single region with
`end = mapped.len()` and `MemoryRegion::contains` is inclusive, so the
physical address equal to the file length IS contained in the region
(here at file length 4096), contradicting the claimed half-open cover
`[0, file_len)`. -/
theorem raw_dump_region_contains_file_len :
    ((raw_dump_regions 4096).any fun region => region.contains 4096) = true ∧
    raw_dump_regions 4096 = [{ start := 0, end_ := 4096, file_offset := 0 }] := by
  refine ⟨by decide, rfl⟩

/-! ## Claim C5: difference preservation of translation -/

/-- Two regions that are physically adjacent but separated in the file. -/
def translatorC5 : MemoryTranslator :=
  MemoryTranslator.new
    [{ start := 0, end_ := 0xfff, file_offset := 0 },
     { start := 0x1000, end_ := 0x1fff, file_offset := 0x10000 }]

/-- C5, counterexample.  The addresses `v1 = 0xffff_8880_0000_0fff` and
`v2 = 0xffff_8880_0000_1000` both lie in the 5-level direct-map window
and both translate, but they land in different physical regions whose
file offsets are not contiguous, so the file-offset difference `0xf001`
differs from `v2 - v1 = 1`. -/
theorem c5_counterexample :
    translatorC5.virtual_to_file_offset 0xffff888000000fff = some 0xfff ∧
    translatorC5.virtual_to_file_offset 0xffff888000001000 = some 0x10000 ∧
    windowIndex translatorC5 0xffff888000000fff = some 1 ∧
    windowIndex translatorC5 0xffff888000001000 = some 1 ∧
    (0xffff888000001000 - 0xffff888000000fff : Nat) = 1 ∧
    (0x10000 - 0xfff : Nat) ≠ 1 := by
  refine ⟨by decide, by decide, by decide, by decide, by decide, by decide⟩

/-- C5, amended.  For `v1 ≤ v2` in the same mapping window whose physical
images fall in the same region (and whose u64 arithmetic does not wrap),
successful translations satisfy
`translate(v2) - translate(v1) = v2 - v1`. -/
theorem virtual_to_file_offset_same_region_difference
    (t : MemoryTranslator) (v1 v2 f1 f2 p1 p2 w : Nat) (region : MemoryRegion)
    (hle : v1 ≤ v2)
    (hw1 : windowIndex t v1 = some w) (hw2 : windowIndex t v2 = some w)
    (hp1 : t.virtual_to_physical v1 = some p1)
    (hp2 : t.virtual_to_physical v2 = some p2)
    (hnof : t.phys_base + (v2 - KERNEL_MAP_BASE) < M64)
    (hr1 : t.regions.find?
        (fun reg => decide (reg.start ≤ p1) && decide (p1 ≤ reg.end_)) = some region)
    (hr2 : t.regions.find?
        (fun reg => decide (reg.start ≤ p2) && decide (p2 ≤ reg.end_)) = some region)
    (hfo : region.file_offset + (p2 - region.start) < M64)
    (hf1 : t.virtual_to_file_offset v1 = some f1)
    (hf2 : t.virtual_to_file_offset v2 = some f2) :
    f2 - f1 = v2 - v1 := by
  have hreg1 := List.find?_some hr1
  have hreg2 := List.find?_some hr2
  simp only [Bool.and_eq_true, decide_eq_true_eq] at hreg1 hreg2
  have hf1' : f1 = (region.file_offset + (p1 - region.start)) % M64 := by
    unfold MemoryTranslator.virtual_to_file_offset at hf1
    rw [hp1] at hf1
    simp [hr1] at hf1
    omega
  have hf2' : f2 = (region.file_offset + (p2 - region.start)) % M64 := by
    unfold MemoryTranslator.virtual_to_file_offset at hf2
    rw [hp2] at hf2
    simp [hr2] at hf2
    omega
  have hpdiff : p1 ≤ p2 ∧ p2 - p1 = v2 - v1 := by
    unfold windowIndex at hw1 hw2
    unfold MemoryTranslator.virtual_to_physical at hp1 hp2
    simp only [M64] at hp1 hp2 hnof
    split_ifs at hw1 hw2 hp1 hp2 <;>
      simp only [Option.some.injEq] at hw1 hw2 hp1 hp2 <;>
      omega
  have hlt1 : region.file_offset + (p1 - region.start) < M64 := by omega
  rw [hf1', hf2', Nat.mod_eq_of_lt hlt1, Nat.mod_eq_of_lt hfo]
  omega

/-- C5, witness: a concrete same-window, same-region instance of the
amended theorem. -/
theorem virtual_to_file_offset_same_region_difference_witness :
    (MemoryTranslator.new [{ start := 0, end_ := 0xffff, file_offset := 0x20 }]
        |>.virtual_to_file_offset 0xffff888000000200).isSome = true := by
  have h := virtual_to_file_offset_same_region_difference
    (MemoryTranslator.new [{ start := 0, end_ := 0xffff, file_offset := 0x20 }])
    0xffff888000000100 0xffff888000000200 0x120 0x220 0x100 0x200 1
    { start := 0, end_ := 0xffff, file_offset := 0x20 }
    (by decide) (by decide) (by decide) (by decide) (by decide)
    (by decide) (by decide) (by decide) (by decide)
    (by decide) (by decide)
  decide

/-! ## Claim C7: the symbol-listing loaders and zero addresses -/

/-- C7, counterexample.  A classic System.map line with a zero address
and a valid one-letter type DOES add an entry to the catalogue: the
System.map loader has no zero check (only the kallsyms loader skips
zero addresses). -/
theorem c7_counterexample :
    load_system_map ["0000000000000000 A irq_stack_union"] =
      [("irq_stack_union", 0)] ∧
    (load_system_map ["0000000000000000 A irq_stack_union"]).lookup "irq_stack_union" =
      some 0 := by
  refine ⟨by decide, by decide⟩

/-- C7, amended.  Per line: a malformed line (fewer than three tokens, an
unparsable address, or a multi-character type token) adds no entry to
either loader (for kallsyms, a multi-character type token is skipped even
when the address parses and is non-zero); a three-token line with address
zero adds no entry to the kallsyms catalogue, but the System.map loader
performs no zero check and adds the symbol with address zero. -/
theorem symbol_loader_line_behaviour :
    (∀ symbols line, ¬(split_whitespace line).length ≥ 3 →
      kallsymsLine symbols line = symbols ∧ systemMapLine symbols line = symbols) ∧
    (∀ symbols line, (split_whitespace line).length ≥ 3 →
      parseSymAddress ((split_whitespace line).getD 0 "") = none →
      kallsymsLine symbols line = symbols ∧ systemMapLine symbols line = symbols) ∧
    (∀ symbols line, (split_whitespace line).length ≥ 3 →
      ¬rsLen ((split_whitespace line).getD 1 "") = 1 →
      systemMapLine symbols line = symbols) ∧
    (∀ symbols line a, (split_whitespace line).length ≥ 3 →
      parseSymAddress ((split_whitespace line).getD 0 "") = some a →
      ¬a = 0 →
      ¬rsLen ((split_whitespace line).getD 1 "") = 1 →
      kallsymsLine symbols line = symbols) ∧
    (∀ symbols line, (split_whitespace line).length ≥ 3 →
      parseSymAddress ((split_whitespace line).getD 0 "") = some 0 →
      kallsymsLine symbols line = symbols) ∧
    (∀ symbols line, (split_whitespace line).length ≥ 3 →
      parseSymAddress ((split_whitespace line).getD 0 "") = some 0 →
      rsLen ((split_whitespace line).getD 1 "") = 1 →
      systemMapLine symbols line = ((split_whitespace line).getD 2 "", 0) :: symbols) := by
  refine ⟨?_, ?_, ?_, ?_, ?_, ?_⟩
  · intro symbols line h3
    constructor
    · simp only [kallsymsLine]
      rw [if_neg h3]
    · simp only [systemMapLine]
      rw [if_neg h3]
  · intro symbols line h3 hp
    constructor
    · simp only [kallsymsLine]
      rw [if_pos h3, hp]
    · simp only [systemMapLine]
      rw [if_pos h3]
      split_ifs with h1
      · rw [hp]
      · rfl
  · intro symbols line h3 ht
    simp only [systemMapLine]
    rw [if_pos h3, if_neg ht]
  · intro symbols line a h3 hp ha ht
    simp only [kallsymsLine]
    rw [if_pos h3, hp]
    simp only [ha, if_false, ite_eq_right_iff]
    intro h1
    exact absurd h1 ht
  · intro symbols line h3 hp
    simp only [kallsymsLine]
    rw [if_pos h3, hp]
    simp
  · intro symbols line h3 hp ht
    simp only [systemMapLine]
    rw [if_pos h3, if_pos ht, hp]
    rfl

/-- C7, witness: the amended behaviour applied to concrete lines of each
kind. -/
theorem symbol_loader_line_behaviour_witness :
    kallsymsLine [] "0 T foo" = [] ∧
    systemMapLine [] "0 T foo" = [("foo", 0)] ∧
    kallsymsLine [] "123 TT foo" = [] ∧
    systemMapLine [] "123 TT foo" = [] ∧
    kallsymsLine [] "garbage" = [] ∧ systemMapLine [] "garbage" = [] := by
  refine ⟨?_, ?_, ?_, ?_, ?_, ?_⟩
  · exact symbol_loader_line_behaviour.2.2.2.2.1 [] "0 T foo" (by decide) (by decide)
  · exact symbol_loader_line_behaviour.2.2.2.2.2 [] "0 T foo" (by decide) (by decide) (by decide)
  · exact symbol_loader_line_behaviour.2.2.2.1 [] "123 TT foo" 291 (by decide) (by decide)
      (by decide) (by decide)
  · exact symbol_loader_line_behaviour.2.2.1 [] "123 TT foo" (by decide) (by decide)
  · exact (symbol_loader_line_behaviour.1 [] "garbage" (by decide)).1
  · exact (symbol_loader_line_behaviour.1 [] "garbage" (by decide)).2

/-! ## Claim C8: field-offset resolution precedence -/

/-- C8.  Offset lookups stop at the first hit of: the debug-info
catalogue, the per-version table, the hard-coded fallbacks; a
catalogue hit makes the kernel version (and so the version table)
irrelevant; `task_struct.state` additionally tries `__state` in the
catalogue before the version table, so a catalogue holding only
`task_struct::__state` answers a `state` lookup with that offset. -/
theorem offset_precedence :
    (∀ (r : SymbolResolver) (sn fn : String) (kv : Option KernelVersion) (offset : Nat),
      r.struct_offsets.lookup (sn ++ "::" ++ fn) = some offset →
      r.get_struct_field_offset sn fn kv = some offset) ∧
    (∀ (r : SymbolResolver) (kv : Option KernelVersion) (offset : Nat),
      r.struct_offsets.lookup "task_struct::state" = none →
      r.struct_offsets.lookup "task_struct::__state" = some offset →
      r.get_struct_field_offset "task_struct" "state" kv = some offset) ∧
    (∀ (r : SymbolResolver) (sn fn : String) (version : KernelVersion) (offset : Nat),
      r.struct_offsets.lookup (sn ++ "::" ++ fn) = none →
      (sn = "task_struct" ∧ fn = "state" →
        r.struct_offsets.lookup "task_struct::__state" = none) →
      offsetsGetOffset version sn fn = some offset →
      r.get_struct_field_offset sn fn (some version) = some offset) ∧
    (∀ (r : SymbolResolver) (sn fn : String) (version : KernelVersion),
      r.struct_offsets.lookup (sn ++ "::" ++ fn) = none →
      (sn = "task_struct" ∧ fn = "state" →
        r.struct_offsets.lookup "task_struct::__state" = none) →
      offsetsGetOffset version sn fn = none →
      r.get_struct_field_offset sn fn (some version) = hardcodedFallback sn fn) ∧
    (∀ (r : SymbolResolver) (sn fn : String),
      r.struct_offsets.lookup (sn ++ "::" ++ fn) = none →
      (sn = "task_struct" ∧ fn = "state" →
        r.struct_offsets.lookup "task_struct::__state" = none) →
      r.get_struct_field_offset sn fn none = hardcodedFallback sn fn) := by
  have halt : ∀ (r : SymbolResolver) (sn fn : String),
      (sn = "task_struct" ∧ fn = "state" →
        r.struct_offsets.lookup "task_struct::__state" = none) →
      (if sn = "task_struct" ∧ fn = "state" then
        r.struct_offsets.lookup "task_struct::__state"
      else none) = none := by
    intro r sn fn h
    split_ifs with hc
    · exact h hc
    · rfl
  refine ⟨?_, ?_, ?_, ?_, ?_⟩
  · intro r sn fn kv offset h
    simp only [SymbolResolver.get_struct_field_offset]
    rw [h]
  · intro r kv offset hmiss halt2
    simp only [SymbolResolver.get_struct_field_offset]
    rw [show ("task_struct" ++ "::" ++ "state" : String) = "task_struct::state" from rfl,
      hmiss, if_pos ⟨trivial, trivial⟩, halt2]
  · intro r sn fn version offset hmiss hast hdb
    simp only [SymbolResolver.get_struct_field_offset]
    rw [hmiss, halt r sn fn hast, hdb]
  · intro r sn fn version hmiss hast hdb
    simp only [SymbolResolver.get_struct_field_offset]
    rw [hmiss, halt r sn fn hast, hdb]
  · intro r sn fn hmiss hast
    simp only [SymbolResolver.get_struct_field_offset]
    rw [hmiss, halt r sn fn hast]

/-- C8, witness: a catalogue holding only `task_struct::__state`, a
catalogue hit shadowing a conflicting version row, and the version-table
and fallback steps, at concrete values. -/
theorem offset_precedence_witness :
    SymbolResolver.get_struct_field_offset
      { symbols := [], struct_offsets := [("task_struct::__state", 0x18)] }
      "task_struct" "state" none = some 0x18 ∧
    SymbolResolver.get_struct_field_offset
      { symbols := [], struct_offsets := [("task_struct::pid", 0x400)] }
      "task_struct" "pid"
      (some { major := 5, minor := 15, patch := 0, extra := "" }) = some 0x400 ∧
    SymbolResolver.get_struct_field_offset { symbols := [], struct_offsets := [] }
      "task_struct" "pid"
      (some { major := 4, minor := 19, patch := 0, extra := "" }) = some 0x318 ∧
    SymbolResolver.get_struct_field_offset { symbols := [], struct_offsets := [] }
      "mm_struct" "arg_start" none = none := by
  refine ⟨?_, ?_, ?_, ?_⟩
  · exact offset_precedence.2.1 _ none 0x18 (by decide) (by decide)
  · exact offset_precedence.1 _ "task_struct" "pid" _ 0x400 (by decide)
  · exact offset_precedence.2.2.1 _ "task_struct" "pid" _ 0x318 (by decide)
      (by intro hc; exact absurd hc.2 (by decide)) (by decide)
  · exact offset_precedence.2.2.2.2 _ "mm_struct" "arg_start" (by decide)
      (by intro hc; exact absurd hc.1 (by decide))

/-! ## Claim C9: walker termination and bounds -/

/-- Induction workhorse for the walker loop: visited offsets stay
distinct and in range, each loop iteration visits exactly one new offset
(so the iteration count is the growth of the visited set, bounded by the
fuel), and at most one record is emitted per visited offset. -/
theorem walkAux_invariants (mapped : List Nat) (translator : MemoryTranslator)
    (r : SymbolResolver) (init_task_offset tasks_offset : Nat) :
    ∀ (fuel current_offset : Nat) (visited : List Nat) (processes : List ProcessInfo),
      visited.Nodup → (∀ o ∈ visited, o < mapped.length) →
      ((walkAux mapped translator r init_task_offset tasks_offset fuel current_offset
          visited processes).2.1.Nodup ∧
        (∀ o ∈ (walkAux mapped translator r init_task_offset tasks_offset fuel
            current_offset visited processes).2.1, o < mapped.length) ∧
        (walkAux mapped translator r init_task_offset tasks_offset fuel current_offset
            visited processes).2.1.length ≤ visited.length + fuel ∧
        visited.length ≤ (walkAux mapped translator r init_task_offset tasks_offset fuel
            current_offset visited processes).2.1.length ∧
        (walkAux mapped translator r init_task_offset tasks_offset fuel current_offset
              visited processes).1.length + visited.length ≤
          processes.length + (walkAux mapped translator r init_task_offset tasks_offset
            fuel current_offset visited processes).2.1.length) := by
  intro fuel
  induction fuel with
  | zero =>
    intro current_offset visited processes hnd hlt
    simp only [walkAux]
    exact ⟨hnd, hlt, by omega, by omega, by omega⟩
  | succ fuel ih =>
    intro current_offset visited processes hnd hlt
    by_cases h1 : mapped.length ≤ current_offset
    · simp only [walkAux, if_pos h1]
      exact ⟨hnd, hlt, by omega, by omega, by omega⟩
    · by_cases h2 : current_offset ∈ visited
      · simp only [walkAux, if_neg h1, if_pos h2]
        exact ⟨hnd, hlt, by omega, by omega, by omega⟩
      · have hnd' : (current_offset :: visited).Nodup := List.nodup_cons.2 ⟨h2, hnd⟩
        have hlt' : ∀ o ∈ current_offset :: visited, o < mapped.length := by
          intro o ho
          rcases List.mem_cons.1 ho with h | h
          · omega
          · exact hlt o h
        simp only [walkAux, if_neg h1, if_neg h2]
        set P := extract_process_info mapped translator r current_offset with hP
        set ps' := (if validate_process_info P then processes ++ [P] else processes) with hps
        have hps1 : ps'.length ≤ processes.length + 1 := by
          rw [hps]
          split_ifs <;> simp
        have hps2 : processes.length ≤ ps'.length := by
          rw [hps]
          split_ifs <;> simp
        have hterm : ∀ reason : StopReason,
            ((ps', current_offset :: visited, reason).2.1.Nodup ∧
              (∀ o ∈ (ps', current_offset :: visited, reason).2.1, o < mapped.length) ∧
              (ps', current_offset :: visited, reason).2.1.length ≤
                visited.length + (fuel + 1) ∧
              visited.length ≤ (ps', current_offset :: visited, reason).2.1.length ∧
              (ps', current_offset :: visited, reason).1.length + visited.length ≤
                processes.length + (ps', current_offset :: visited, reason).2.1.length) := by
          intro reason
          refine ⟨hnd', hlt', ?_, ?_, ?_⟩ <;> simp only [List.length_cons] <;> omega
        split
        · exact hterm _
        · split_ifs with h3
          · exact hterm _
          · split
            · exact hterm _
            · split_ifs with h4 h5
              · exact hterm _
              · exact hterm _
              · rename_i next_list_head_offset hsplit
                have hrec := ih (next_list_head_offset - tasks_offset)
                  (current_offset :: visited) ps' hnd' hlt'
                refine ⟨hrec.1, hrec.2.1, ?_, ?_, ?_⟩
                · have := hrec.2.2.1
                  simp only [List.length_cons] at this
                  omega
                · have := hrec.2.2.2.1
                  simp only [List.length_cons] at this
                  omega
                · have h6 := hrec.2.2.2.2
                  simp only [List.length_cons] at h6
                  omega

/-- A walker step whose current offset is at or past the buffer end stops
at once, returning the accumulators unchanged. -/
theorem walkAux_stop_out_of_range (mapped : List Nat) (translator : MemoryTranslator)
    (r : SymbolResolver) (init_task_offset tasks_offset fuel current_offset : Nat)
    (visited : List Nat) (processes : List ProcessInfo)
    (h : mapped.length ≤ current_offset) :
    walkAux mapped translator r init_task_offset tasks_offset (fuel + 1) current_offset
      visited processes = (processes, visited, StopReason.offsetBeyondMap) := by
  simp only [walkAux, if_pos h]

/-- C9.  The walker always terminates; its loop iterations are in
one-to-one correspondence with the distinct offsets it visits (the
visited list has no duplicates and every visited offset is inside the
buffer), the visited set is bounded by the 10 000-iteration budget, at
most one record is emitted per visited offset, and an anchor at or past
the buffer end stops the walk immediately. -/
theorem walker_termination_bounds (mapped : List Nat) (translator : MemoryTranslator)
    (r : SymbolResolver) (anchor : Nat) :
    (walkModel mapped translator r anchor).2.1.Nodup ∧
    (walkModel mapped translator r anchor).2.1.length ≤ 10000 ∧
    (walkModel mapped translator r anchor).1.length ≤
      (walkModel mapped translator r anchor).2.1.length ∧
    (∀ o ∈ (walkModel mapped translator r anchor).2.1, o < mapped.length) ∧
    (mapped.length ≤ anchor →
      walkModel mapped translator r anchor = ([], [], StopReason.offsetBeyondMap)) := by
  have h := walkAux_invariants mapped translator r anchor
    ((r.get_struct_field_offset "task_struct" "tasks"
      (detect_kernel_version mapped)).getD 0x0) 10000 anchor [] []
    (by simp) (by simp)
  simp only [walkModel]
  refine ⟨h.1, ?_, ?_, h.2.1, ?_⟩
  · have h1 := h.2.2.1
    simp only [List.length_nil] at h1
    omega
  · have h1 := h.2.2.2.2
    simp only [List.length_nil] at h1
    omega
  · intro hbig
    exact walkAux_stop_out_of_range mapped translator r anchor _ 9999 anchor [] [] hbig

/-- C9, witness: the bounds and the immediate stop of an out-of-range
anchor, at a concrete dump. -/
theorem walker_termination_bounds_witness :
    walkModel [0, 0, 0, 0] (MemoryTranslator.new [])
      { symbols := [], struct_offsets := [] } 200 =
      ([], [], StopReason.offsetBeyondMap) :=
  (walker_termination_bounds [0, 0, 0, 0] (MemoryTranslator.new [])
    { symbols := [], struct_offsets := [] } 200).2.2.2.2 (by decide)

/-! ## Concrete dumps used by the walker scenarios

All tasks are 48 bytes wide with catalogue offsets `pid = 16`,
`comm = 32`, `tasks = 8` (and `cred = 24` where used); pointers use the
default 5-level direct map, so virtual `0xffff_8880_0000_00xx` is file
offset `0xxx`. -/

/-- The four little-endian bytes of a 32-bit value. -/
def u32le (n : Nat) : List Nat :=
  [n % 256, n / 256 % 256, n / 65536 % 256, n / 16777216 % 256]

/-- The eight little-endian bytes of a 64-bit value. -/
def u64le (n : Nat) : List Nat := u32le (n % 2 ^ 32) ++ u32le (n / 2 ^ 32)

/-- Resolver for the two- and three-task walk scenarios. -/
def resolverWalk : SymbolResolver :=
  { symbols := []
    struct_offsets :=
      [("task_struct::pid", 16), ("task_struct::comm", 32), ("task_struct::tasks", 8)] }

/-- Two tasks: the anchor (pid 0, `swapper`) links to a second task
(pid 1, `init`) whose `tasks.next` is NULL. -/
def memNullNext : List Nat :=
  List.replicate 8 0 ++ u64le 0xffff888000000038 ++ u32le 0 ++ List.replicate 12 0 ++
    swapperBytes ++ List.replicate 9 0 ++
  List.replicate 8 0 ++ u64le 0 ++ u32le 1 ++ List.replicate 12 0 ++
    [0x69, 0x6e, 0x69, 0x74] ++ List.replicate 12 0

/-- Translator covering the two-task dump one-to-one. -/
def translatorWalk : MemoryTranslator :=
  MemoryTranslator.new [{ start := 0, end_ := 95, file_offset := 0 }]

/-- Three tasks in a circle: the anchor (pid 0, `swapper`), an invalid
middle task (pid 5 000 000, beyond `PID_MAX_LIMIT`), and a valid third
task (pid 2, `kthreadd`) linking back to the anchor. -/
def memSkipMiddle : List Nat :=
  List.replicate 8 0 ++ u64le 0xffff888000000038 ++ u32le 0 ++ List.replicate 12 0 ++
    swapperBytes ++ List.replicate 9 0 ++
  List.replicate 8 0 ++ u64le 0xffff888000000068 ++ u32le 5000000 ++
    List.replicate 12 0 ++ [0x62, 0x61, 0x64] ++ List.replicate 13 0 ++
  List.replicate 8 0 ++ u64le 0xffff888000000008 ++ u32le 2 ++ List.replicate 12 0 ++
    [0x6b, 0x74, 0x68, 0x72, 0x65, 0x61, 0x64, 0x64] ++ List.replicate 8 0

/-- Translator covering the three-task dump one-to-one. -/
def translatorSkip : MemoryTranslator :=
  MemoryTranslator.new [{ start := 0, end_ := 143, file_offset := 0 }]

/-! ## Claim C1: which anomalies are fatal -/

/-- C1, counterexample.  A NULL `tasks.next` read mid-walk (at the second
task of `memNullNext`) does NOT end the run with a non-Ok result: the
walker logs, stops the walk, and `walk_process_list` still returns `Ok`
with both already-extracted records. -/
theorem c1_counterexample :
    (walkModel memNullNext translatorWalk resolverWalk 0).2.2 = StopReason.nullNext ∧
    (walk_process_list memNullNext translatorWalk resolverWalk 0).isOk = true ∧
    (walkModel memNullNext translatorWalk resolverWalk 0).1.length = 2 := by
  refine ⟨by decide, by decide, by decide⟩

/-- C1, amended.  Only a Stage-A failure is fatal: `main` turns a failed
KASLR detection into a `SymbolNotFound` error.  A Stage-B fall-through is
not fatal - the stage always hands some `phys_base` to the next step.
The walker never returns a non-Ok result: a null or untranslatable next
pointer only stops the walk, keeping the records collected so far, and a
single record that fails validation is skipped while the walk continues
(in the three-task dump the invalid middle task is dropped but the third
task is still visited and emitted). -/
theorem failure_semantics :
    (∀ (r : SymbolResolver) (mapped : List Nat) (t : MemoryTranslator),
      detect_kaslr_offset r mapped t = none →
      runStageA r mapped t = Except.error (AnalysisError.SymbolNotFound
        "Could not detect KASLR offset - init_task with PID 0 not found.")) ∧
    (∀ (r : SymbolResolver) (mapped : List Nat) (t : MemoryTranslator) (res : Int × Nat),
      runStageA r mapped t = Except.ok res →
      runStageAB r mapped t = Except.ok (res.2, stageBPhysBase r mapped t res.2)) ∧
    (∀ (mapped : List Nat) (t : MemoryTranslator) (r : SymbolResolver) (anchor : Nat),
      ∃ ps, walk_process_list mapped t r anchor = Except.ok ps) ∧
    ((walkModel memSkipMiddle translatorSkip resolverWalk 0).1.length = 2 ∧
      (walkModel memSkipMiddle translatorSkip resolverWalk 0).2.1.length = 3 ∧
      (walkModel memSkipMiddle translatorSkip resolverWalk 0).2.2 =
        StopReason.cycleClosed) := by
  refine ⟨?_, ?_, ?_, by decide, by decide, by decide⟩
  · intro r mapped t h
    simp only [runStageA, h]
  · intro r mapped t res h
    simp only [runStageAB, h]
  · intro mapped t r anchor
    exact ⟨_, rfl⟩

/-- C1, witness: the amended failure semantics applied at concrete
inputs - an empty resolver makes Stage A fail fatally, and the null-next
dump yields a normal `Ok` return. -/
theorem failure_semantics_witness :
    runStageA { symbols := [], struct_offsets := [] } [] (MemoryTranslator.new []) =
      Except.error (AnalysisError.SymbolNotFound
        "Could not detect KASLR offset - init_task with PID 0 not found.") ∧
    (∃ ps, walk_process_list memNullNext translatorWalk resolverWalk 0 = Except.ok ps) := by
  constructor
  · exact failure_semantics.1 _ _ _ (by decide)
  · exact failure_semantics.2.2.1 memNullNext translatorWalk resolverWalk 0

/-! ## Claim C3: invariants of emitted records -/

/-- Resolver for the uid scenario: the debug-info catalogue also places
`cred` at offset 24 with `uid`/`gid` at 0 and 4. -/
def resolverCred : SymbolResolver :=
  { symbols := []
    struct_offsets :=
      [("task_struct::pid", 16), ("task_struct::comm", 32), ("task_struct::tasks", 8),
        ("task_struct::cred", 24), ("cred::uid", 0), ("cred::gid", 4)] }

/-- A single self-looped pid-0 task whose cred structure carries
`uid = 70000`. -/
def memBigUid : List Nat :=
  List.replicate 8 0 ++ u64le 0xffff888000000008 ++ u32le 0 ++ List.replicate 4 0 ++
    u64le 0xffff888000000030 ++ swapperBytes ++ List.replicate 9 0 ++
    u32le 70000 ++ u32le 0 ++ List.replicate 8 0

/-- Translator covering the uid dump one-to-one. -/
def translatorCred : MemoryTranslator :=
  MemoryTranslator.new [{ start := 0, end_ := 63, file_offset := 0 }]

/-- C3, counterexample.  The walker emits a record with `uid = 70000`:
for `pid = 0` the validator returns `true` before the uid/gid bounds are
checked, so the claimed unconditional `uid ≤ 65535` invariant fails. -/
theorem c3_counterexample :
    (walkModel memBigUid translatorCred resolverCred 0).1.map ProcessInfo.uid =
      [70000] ∧
    (walkModel memBigUid translatorCred resolverCred 0).1.map ProcessInfo.pid = [0] ∧
    ¬(70000 : Nat) ≤ 65535 := by
  refine ⟨by decide, by decide, by decide⟩

/-- Records emitted by the walker loop all pass `validate_process_info`
(assuming the records accumulated so far do). -/
theorem walkAux_emitted_valid (mapped : List Nat) (translator : MemoryTranslator)
    (r : SymbolResolver) (init_task_offset tasks_offset : Nat) :
    ∀ (fuel current_offset : Nat) (visited : List Nat) (processes : List ProcessInfo),
      (∀ q ∈ processes, validate_process_info q = true) →
      ∀ p ∈ (walkAux mapped translator r init_task_offset tasks_offset fuel
          current_offset visited processes).1,
        validate_process_info p = true := by
  intro fuel
  induction fuel with
  | zero =>
    intro current_offset visited processes hq
    simpa only [walkAux] using hq
  | succ fuel ih =>
    intro current_offset visited processes hq
    by_cases h1 : mapped.length ≤ current_offset
    · simpa only [walkAux, if_pos h1] using hq
    · by_cases h2 : current_offset ∈ visited
      · simpa only [walkAux, if_neg h1, if_pos h2] using hq
      · simp only [walkAux, if_neg h1, if_neg h2]
        set P := extract_process_info mapped translator r current_offset with hP
        set ps' := (if validate_process_info P then processes ++ [P] else processes) with hps
        have hq' : ∀ q ∈ ps', validate_process_info q = true := by
          rw [hps]
          split_ifs with hv
          · intro q hqm
            rcases List.mem_append.1 hqm with h | h
            · exact hq q h
            · rw [List.mem_singleton.1 h]
              exact hv
          · exact hq
        split
        · exact hq'
        · split_ifs with h3
          · exact hq'
          · split
            · exact hq'
            · split_ifs with h4 h5
              · exact hq'
              · exact hq'
              · exact ih _ _ _ hq'

/-- C3, amended.  Every record the walker emits satisfies
`0 ≤ pid ≤ 4_194_304`; and WHEN `pid > 0` it additionally satisfies:
the command name is non-empty, `uid ≤ 65535` and `gid ≤ 65535`, and the
count of printable-ASCII characters in the command name reaches the
f64-computed threshold `(len as f64 * ratio) as usize` (ratio 0.3 below
pid 300, else 0.5).  A `pid = 0` record is emitted with no constraint on
its command name, uid or gid. -/
theorem walker_emitted_invariants (mapped : List Nat) (t : MemoryTranslator)
    (r : SymbolResolver) (anchor : Nat) (p : ProcessInfo)
    (hmem : p ∈ (walkModel mapped t r anchor).1) :
    0 ≤ p.pid ∧ p.pid ≤ 4194304 ∧
    (0 < p.pid →
      p.comm ≠ "" ∧ p.uid ≤ 65535 ∧ p.gid ≤ 65535 ∧
      (if p.pid < 300 then f64FloorMulRatio (rsLen p.comm) ratio03Num 54
        else f64FloorMulRatio (rsLen p.comm) 1 1) ≤
        (p.comm.data.filter fun c =>
          decide (0x20 ≤ c.toNat) && decide (c.toNat ≤ 0x7E)).length) := by
  have hv : validate_process_info p = true := by
    refine walkAux_emitted_valid mapped t r anchor
      ((r.get_struct_field_offset "task_struct" "tasks"
        (detect_kernel_version mapped)).getD 0x0) 10000 anchor [] [] (by simp) p ?_
    simpa only [walkModel] using hmem
  unfold validate_process_info at hv
  by_cases h1 : p.pid < 0 ∨ p.pid > 4194304
  · rw [if_pos h1] at hv
    exact absurd hv (by simp)
  · rw [if_neg h1] at hv
    by_cases h2 : p.pid = 0
    · exact ⟨by omega, by omega, fun hpos => absurd h2 (by omega)⟩
    · rw [if_neg h2] at hv
      by_cases h3 : p.comm = ""
      · rw [if_pos h3] at hv
        exact absurd hv (by simp)
      · rw [if_neg h3] at hv
        by_cases h4 : (p.comm.data.filter fun c =>
              decide (0x20 ≤ c.toNat) && decide (c.toNat ≤ 0x7E)).length <
            (if p.pid < 300 then f64FloorMulRatio (rsLen p.comm) ratio03Num 54
              else f64FloorMulRatio (rsLen p.comm) 1 1)
        · rw [if_pos h4] at hv
          exact absurd hv (by simp)
        · rw [if_neg h4] at hv
          by_cases h5 : p.uid > 65535 ∨ p.gid > 65535
          · rw [if_pos h5] at hv
            exact absurd hv (by simp)
          · exact ⟨by omega, by omega,
              fun hpos => ⟨h3, by omega, by omega, Nat.le_of_not_lt h4⟩⟩

/-- C3, witness: the amended invariants applied to the pid-1 record of
the two-task dump. -/
theorem walker_emitted_invariants_witness :
    ∃ p ∈ (walkModel memNullNext translatorWalk resolverWalk 0).1,
      0 < p.pid ∧ p.uid ≤ 65535 := by
  refine ⟨⟨48, 1, "init", 0, 0, 0, 0, "Running", "[kernel thread]"⟩,
    by decide, by decide, ?_⟩
  exact ((walker_emitted_invariants memNullNext translatorWalk resolverWalk 0 _
    (by decide)).2.2 (by decide)).2.1

/-! ## Claim C4: Stage-A acceptance -/

/-- The acceptance test of the KASLR shift loop at a translated file
offset - the "four checks" of Stage A: pid reads 0, at least 3 of the 10
sampled words are non-zero, the `tasks` word is a canonical kernel
pointer distinct from the sentinels, and the command field starts with
`swapper` (offsets resolved as `detect_kaslr_offset` resolves them). -/
def stageAChecks (r : SymbolResolver) (memory : List Nat) (file_offset : Nat) : Bool :=
  decide (file_offset + (r.get_struct_field_offset_fallback "task_struct" "pid").getD 0xad0
      + 4 ≤ memory.length) &&
  (read_i32 memory
      (file_offset + (r.get_struct_field_offset_fallback "task_struct" "pid").getD 0xad0)
    == some 0) &&
  decide (3 ≤ sampleOffsets.countP fun sample_off =>
    decide (file_offset + sample_off + 8 ≤ memory.length) &&
      decide (leVal (readBytes memory (file_offset + sample_off) 8) ≠ 0)) &&
  decide (file_offset + (r.get_struct_field_offset_fallback "task_struct" "tasks").getD 0xa00
      + 8 ≤ memory.length) &&
  (match read_u64 memory
      (file_offset + (r.get_struct_field_offset_fallback "task_struct" "tasks").getD 0xa00) with
   | none => false
   | some tasks_next =>
     decide (tasks_next ≠ 0) && decide (MIN_KERNEL_ADDR ≤ tasks_next) &&
       decide (tasks_next < MAX_KERNEL_ADDR) &&
       decide (tasks_next ≠ 0xffffffffffffffff) &&
       decide (tasks_next ≠ 0xfffffffffffffffe)) &&
  strStartsWith
    (trimEndNul ((read_string memory
      (file_offset + (r.get_struct_field_offset_fallback "task_struct" "comm").getD 0xcf0)
      16).getD "")) "swapper"

/-- Resolver for the Stage-A scenario: `init_task` is known but the
translator below has no regions, so every shifted address fails to
translate and the swapper fallback must decide. -/
def resolverKaslr : SymbolResolver :=
  { symbols := [("init_task", 0xffffffff81a00000)]
    struct_offsets :=
      [("task_struct::pid", 16), ("task_struct::comm", 32), ("task_struct::tasks", 8)] }

/-- A translator with no physical regions. -/
def translatorNoRegions : MemoryTranslator := MemoryTranslator.new []

/-- A 48-byte dump holding a swapper-like candidate whose only non-zero
words are the `tasks` pointer and the comm field - too few to pass the
non-zero-words check. -/
def memSwapperOnly : List Nat :=
  List.replicate 8 0 ++ u64le 0xffff888000000000 ++ u32le 0 ++ List.replicate 12 0 ++
    swapperBytes ++ List.replicate 9 0

/-- Translation always fails when the translator has no regions. -/
theorem virtual_to_file_offset_no_regions (pb p4 p5 v : Nat) :
    MemoryTranslator.virtual_to_file_offset ⟨[], pb, p4, p5⟩ v = none := by
  unfold MemoryTranslator.virtual_to_file_offset
  cases h : MemoryTranslator.virtual_to_physical ⟨[], pb, p4, p5⟩ v <;>
    simp [List.find?]

/-- Every KASLR shift fails when the translator has no regions. -/
theorem kaslrTryShift_no_regions (memory : List Nat) (pb p4 p5 s a b c : Nat) (k : Int) :
    kaslrTryShift memory ⟨[], pb, p4, p5⟩ s a b c k = none := by
  simp only [kaslrTryShift, virtual_to_file_offset_no_regions]

/-- A `findSome?` over a list on which the function is constantly `none`
yields `none`. -/
theorem findSome?_eq_none_of {α β : Type} (f : α → Option β) (l : List α)
    (h : ∀ a ∈ l, f a = none) : l.findSome? f = none := by
  induction l with
  | nil => rfl
  | cons x xs ih =>
    rw [List.findSome?, h x (List.mem_cons_self x xs)]
    exact ih fun a ha => h a (List.mem_cons_of_mem x ha)

/-- On the swapper-only dump, Stage A succeeds through the fallback. -/
theorem detect_on_swapper_dump :
    detect_kaslr_offset resolverKaslr memSwapperOnly translatorNoRegions = some (0, 0) := by
  have hnone : kaslrShifts.findSome?
      (kaslrTryShift memSwapperOnly translatorNoRegions 0xffffffff81a00000 16 8 32) =
      none :=
    findSome?_eq_none_of _ _ fun k _ =>
      kaslrTryShift_no_regions memSwapperOnly 0x1000000 PAGE_OFFSET_4LEVEL
        PAGE_OFFSET_5LEVEL 0xffffffff81a00000 16 8 32 k
  simp only [detect_kaslr_offset,
    show resolverKaslr.get_symbol_address "init_task" = some 0xffffffff81a00000 from by
      decide,
    show (resolverKaslr.get_struct_field_offset_fallback "task_struct" "pid").getD 0xad0 =
      16 from by decide,
    show (resolverKaslr.get_struct_field_offset_fallback "task_struct" "tasks").getD
      0xa00 = 8 from by decide,
    show (resolverKaslr.get_struct_field_offset_fallback "task_struct" "comm").getD
      0xcf0 = 32 from by decide,
    hnone,
    show find_init_task_by_swapper_string resolverKaslr memSwapperOnly = some 0 from by
      decide]

/-- C4, counterexample.  On `memSwapperOnly` no shift passes (conjunct
three), the fallback accepts base 0 and `detect_kaslr_offset` returns
`some (0, 0)` - yet the Stage-A four-check test FAILS at offset 0 (only
2 of the 10 sampled words are non-zero).  The fallback does not re-apply
the checks as claimed: it never re-checks the non-zero-words criterion. -/
theorem c4_counterexample :
    detect_kaslr_offset resolverKaslr memSwapperOnly translatorNoRegions = some (0, 0) ∧
    stageAChecks resolverKaslr memSwapperOnly 0 = false ∧
    (∀ k ∈ kaslrShifts,
      kaslrTryShift memSwapperOnly translatorNoRegions 0xffffffff81a00000 16 8 32 k =
        none) := by
  refine ⟨detect_on_swapper_dump, by decide, ?_⟩
  intro k _
  exact kaslrTryShift_no_regions memSwapperOnly 0x1000000 PAGE_OFFSET_4LEVEL
    PAGE_OFFSET_5LEVEL 0xffffffff81a00000 16 8 32 k

/-- A successful `findSome?` is produced by some element of the list. -/
theorem findSome?_exists {α β : Type} (f : α → Option β) (l : List α) (out : β)
    (h : l.findSome? f = some out) : ∃ a ∈ l, f a = some out := by
  induction l with
  | nil => exact absurd h (by simp [List.findSome?])
  | cons x xs ih =>
    rw [List.findSome?] at h
    cases hfx : f x with
    | some y =>
      simp only [hfx] at h
      exact ⟨x, List.mem_cons_self x xs, hfx.trans (by rw [h])⟩
    | none =>
      simp only [hfx] at h
      obtain ⟨a, ha, hfa⟩ := ih h
      exact ⟨a, List.mem_cons_of_mem x ha, hfa⟩

/-- Soundness of the swapper-string fallback: a returned base comes from
a `swapper` occurrence taken as the comm field, with pid reading 0 and
the `tasks` word inside the canonical window and distinct from the
all-ones sentinel - and nothing more. -/
theorem find_swapper_sound (r : SymbolResolver) (memory : List Nat) (off : Nat)
    (h : find_init_task_by_swapper_string r memory = some off) :
    ∃ match_pos ∈ find_iter swapperBytes memory,
      (r.get_struct_field_offset_fallback "task_struct" "comm").getD 0xcf0 ≤ match_pos ∧
      off = match_pos -
        (r.get_struct_field_offset_fallback "task_struct" "comm").getD 0xcf0 ∧
      read_i32 memory
        (off + (r.get_struct_field_offset_fallback "task_struct" "pid").getD 0xad0) =
        some 0 ∧
      ∃ tasks_next,
        read_u64 memory
          (off + (r.get_struct_field_offset_fallback "task_struct" "tasks").getD 0xa00) =
          some tasks_next ∧
        MIN_KERNEL_ADDR ≤ tasks_next ∧ tasks_next < MAX_KERNEL_ADDR ∧
        tasks_next ≠ 0xffffffffffffffff := by
  simp only [find_init_task_by_swapper_string] at h
  obtain ⟨match_pos, hmem, hf⟩ := findSome?_exists _ _ _ h
  refine ⟨match_pos, hmem, ?_⟩
  by_cases h1 : match_pos <
      (r.get_struct_field_offset_fallback "task_struct" "comm").getD 0xcf0
  · rw [if_pos h1] at hf
    cases hf
  · rw [if_neg h1] at hf
    by_cases h2 : match_pos -
        (r.get_struct_field_offset_fallback "task_struct" "comm").getD 0xcf0 +
        (r.get_struct_field_offset_fallback "task_struct" "pid").getD 0xad0 + 4 >
        memory.length
    · rw [if_pos h2] at hf
      cases hf
    · rw [if_neg h2] at hf
      cases hpid : read_i32 memory (match_pos -
          (r.get_struct_field_offset_fallback "task_struct" "comm").getD 0xcf0 +
          (r.get_struct_field_offset_fallback "task_struct" "pid").getD 0xad0) with
      | none => simp [hpid] at hf
      | some pid =>
        simp only [hpid] at hf
        by_cases h3 : pid = 0
        · rw [if_pos h3] at hf
          by_cases h4 : match_pos -
              (r.get_struct_field_offset_fallback "task_struct" "comm").getD 0xcf0 +
              (r.get_struct_field_offset_fallback "task_struct" "tasks").getD 0xa00 + 8 ≤
              memory.length
          · rw [if_pos h4] at hf
            cases hnext : read_u64 memory (match_pos -
                (r.get_struct_field_offset_fallback "task_struct" "comm").getD 0xcf0 +
                (r.get_struct_field_offset_fallback "task_struct" "tasks").getD 0xa00) with
            | none => simp [hnext] at hf
            | some tasks_next =>
              simp only [hnext] at hf
              by_cases h5 : MIN_KERNEL_ADDR ≤ tasks_next ∧
                  tasks_next < MAX_KERNEL_ADDR ∧ tasks_next ≠ 0xffffffffffffffff
              · rw [if_pos h5] at hf
                have hoff : off = match_pos -
                    (r.get_struct_field_offset_fallback "task_struct" "comm").getD 0xcf0 := by
                  cases hf
                  rfl
                subst hoff
                exact ⟨Nat.le_of_not_lt h1, rfl, by rw [h3] at hpid; exact hpid,
                  tasks_next, hnext, h5.1, h5.2.1, h5.2.2⟩
              · rw [if_neg h5] at hf
                cases hf
          · rw [if_neg h4] at hf
            cases hf
        · rw [if_neg h3] at hf
          cases hf

/-- C4, amended.  `detect_kaslr_offset` returns `some (shift, off)` only
when either some `k ∈ [-512, 512]` passes the full four-check loop body
(so `shift = k · 1 MiB` and `off` is the translated offset), or no shift
passed and the swapper-string fallback produced `off` with `shift = 0`;
the fallback applies only the reduced checks - pid reads 0 and the
`tasks` word lies in `[0xffff_8000_0000_0000, 0xffff_ffff_fff0_0000)`
and differs from the all-ones sentinel - and does not re-apply the
non-zero-words check. -/
theorem detect_kaslr_soundness (r : SymbolResolver) (memory : List Nat)
    (t : MemoryTranslator) (shift : Int) (off : Nat)
    (h : detect_kaslr_offset r memory t = some (shift, off)) :
    (∃ static_init_task, r.get_symbol_address "init_task" = some static_init_task ∧
      ∃ k ∈ kaslrShifts,
        kaslrTryShift memory t static_init_task
          ((r.get_struct_field_offset_fallback "task_struct" "pid").getD 0xad0)
          ((r.get_struct_field_offset_fallback "task_struct" "tasks").getD 0xa00)
          ((r.get_struct_field_offset_fallback "task_struct" "comm").getD 0xcf0) k =
          some (shift, off)) ∨
    (shift = 0 ∧
      ∃ match_pos ∈ find_iter swapperBytes memory,
        (r.get_struct_field_offset_fallback "task_struct" "comm").getD 0xcf0 ≤
          match_pos ∧
        off = match_pos -
          (r.get_struct_field_offset_fallback "task_struct" "comm").getD 0xcf0 ∧
        read_i32 memory
          (off + (r.get_struct_field_offset_fallback "task_struct" "pid").getD 0xad0) =
          some 0 ∧
        ∃ tasks_next,
          read_u64 memory
            (off + (r.get_struct_field_offset_fallback "task_struct" "tasks").getD 0xa00) =
            some tasks_next ∧
          MIN_KERNEL_ADDR ≤ tasks_next ∧ tasks_next < MAX_KERNEL_ADDR ∧
          tasks_next ≠ 0xffffffffffffffff) := by
  simp only [detect_kaslr_offset] at h
  cases hsym : r.get_symbol_address "init_task" with
  | none => simp [hsym] at h
  | some static_init_task =>
    simp only [hsym] at h
    cases hloop : kaslrShifts.findSome?
        (kaslrTryShift memory t static_init_task
          ((r.get_struct_field_offset_fallback "task_struct" "pid").getD 0xad0)
          ((r.get_struct_field_offset_fallback "task_struct" "tasks").getD 0xa00)
          ((r.get_struct_field_offset_fallback "task_struct" "comm").getD 0xcf0)) with
    | some res =>
      simp only [hloop, Option.some.injEq] at h
      obtain ⟨k, hk, hkf⟩ := findSome?_exists _ _ _ hloop
      refine Or.inl ⟨static_init_task, rfl, k, hk, ?_⟩
      rw [hkf, h]
    | none =>
      simp only [hloop] at h
      cases hfb : find_init_task_by_swapper_string r memory with
      | none => simp [hfb] at h
      | some init_task_offset =>
        simp only [hfb, Option.some.injEq, Prod.mk.injEq] at h
        obtain ⟨match_pos, hm, hrest⟩ := find_swapper_sound r memory init_task_offset hfb
        rw [h.2] at hrest
        exact Or.inr ⟨h.1.symm, match_pos, hm, hrest⟩

/-- C4, witness: the amended soundness applied to the swapper-only dump,
where the fallback branch fires. -/
theorem detect_kaslr_soundness_witness :
    (∃ static_init_task,
        resolverKaslr.get_symbol_address "init_task" = some static_init_task ∧
        ∃ k ∈ kaslrShifts,
          kaslrTryShift memSwapperOnly translatorNoRegions static_init_task
            ((resolverKaslr.get_struct_field_offset_fallback "task_struct" "pid").getD 0xad0)
            ((resolverKaslr.get_struct_field_offset_fallback "task_struct" "tasks").getD 0xa00)
            ((resolverKaslr.get_struct_field_offset_fallback "task_struct" "comm").getD 0xcf0)
            k = some (0, 0)) ∨
    ((0 : Int) = 0 ∧
      ∃ match_pos ∈ find_iter swapperBytes memSwapperOnly,
        (resolverKaslr.get_struct_field_offset_fallback "task_struct" "comm").getD 0xcf0 ≤
          match_pos ∧
        (0 : Nat) = match_pos -
          (resolverKaslr.get_struct_field_offset_fallback "task_struct" "comm").getD 0xcf0 ∧
        read_i32 memSwapperOnly
          (0 + (resolverKaslr.get_struct_field_offset_fallback "task_struct" "pid").getD
            0xad0) = some 0 ∧
        ∃ tasks_next,
          read_u64 memSwapperOnly
            (0 + (resolverKaslr.get_struct_field_offset_fallback "task_struct"
              "tasks").getD 0xa00) = some tasks_next ∧
          MIN_KERNEL_ADDR ≤ tasks_next ∧ tasks_next < MAX_KERNEL_ADDR ∧
          tasks_next ≠ 0xffffffffffffffff) :=
  detect_kaslr_soundness resolverKaslr memSwapperOnly translatorNoRegions 0 0
    detect_on_swapper_dump

/-! ## Claim C10: totality of the LiME header parser -/

/-- Bytes of the dump are below 256 (`byteAt` also defaults to 0). -/
theorem byteAt_lt (m : List Nat) (h : ∀ b ∈ m, b < 256) (i : Nat) : byteAt m i < 256 := by
  induction m generalizing i with
  | nil => simp [byteAt, List.getD]
  | cons b rest ih =>
    cases i with
    | zero =>
      simp only [byteAt, List.getD_cons_zero]
      exact h b (List.mem_cons_self _ _)
    | succ i =>
      simp only [byteAt, List.getD_cons_succ]
      exact ih (fun x hx => h x (List.mem_cons_of_mem _ hx)) i

/-- A little-endian value is bounded by 256 to the number of bytes. -/
theorem leVal_lt (bs : List Nat) (h : ∀ b ∈ bs, b < 256) :
    leVal bs < 256 ^ bs.length := by
  induction bs with
  | nil => simp [leVal]
  | cons b rest ih =>
    simp only [leVal, List.length_cons, pow_succ]
    have h1 : b < 256 := h b (List.mem_cons_self _ _)
    have h2 := ih fun x hx => h x (List.mem_cons_of_mem _ hx)
    have h3 : 256 * (leVal rest + 1) ≤ 256 * 256 ^ rest.length :=
      Nat.mul_le_mul_left 256 (by omega)
    have h4 : 256 ^ rest.length * 256 = 256 * 256 ^ rest.length := Nat.mul_comm _ _
    omega

/-- An eight-byte read is below 2^64. -/
theorem leVal_read8_lt (m : List Nat) (h : ∀ b ∈ m, b < 256) (off : Nat) :
    leVal (readBytes m off 8) < M64 := by
  have hb : ∀ x ∈ readBytes m off 8, x < 256 := by
    intro x hx
    simp only [readBytes, List.mem_map] at hx
    obtain ⟨i, _, hi⟩ := hx
    rw [← hi]
    exact byteAt_lt m h _
  have := leVal_lt _ hb
  simpa [readBytes, M64] using this

/-- The exact characterization of a well-formed parse chain starting at
`offset`: every region decodes the header at its own `file_offset - 32`,
consecutive headers are separated by `32 + (end - start + 1)` bytes, and
the chain ends at the first position holding no matching header. -/
def limeChainOk (m : List Nat) : Nat → List MemoryRegion → Prop
  | offset, [] =>
    ¬(offset + HEADER_SIZE ≤ m.length ∧ leVal (readBytes m offset 4) = LIME_MAGIC)
  | offset, r :: rs =>
    offset + HEADER_SIZE ≤ m.length ∧
    leVal (readBytes m offset 4) = LIME_MAGIC ∧
    r.file_offset = offset + HEADER_SIZE ∧
    r.start = leVal (readBytes m (offset + 8) 8) ∧
    r.end_ = leVal (readBytes m (offset + 16) 8) ∧
    r.start ≤ r.end_ ∧
    limeChainOk m (offset + HEADER_SIZE + (r.end_ - r.start + 1)) rs

/-- Soundness and termination of the header loop under the data-model
precondition: all headers in range with the magic have `start ≤ end` and
a segment that fits the dump. -/
theorem parseLimeAux_sound (m : List Nat)
    (hbytes : ∀ b ∈ m, b < 256)
    (hlen : 2 * m.length + 64 < M64)
    (hpre : ∀ off, off + HEADER_SIZE ≤ m.length →
      leVal (readBytes m off 4) = LIME_MAGIC →
      leVal (readBytes m (off + 8) 8) ≤ leVal (readBytes m (off + 16) 8) ∧
      leVal (readBytes m (off + 16) 8) - leVal (readBytes m (off + 8) 8) + 1 ≤
        m.length) :
    ∀ fuel offset, offset ≤ 2 * m.length + 32 → m.length ≤ offset + 33 * fuel →
      ∃ rs, parseLimeAux m (fuel + 1) offset = some rs ∧ limeChainOk m offset rs := by
  intro fuel
  induction fuel with
  | zero =>
    intro offset hob hfb
    have hstop : ¬(offset + HEADER_SIZE) % M64 ≤ m.length := by
      rw [Nat.mod_eq_of_lt (by unfold HEADER_SIZE M64 at *; omega)]
      unfold HEADER_SIZE
      omega
    refine ⟨[], ?_, ?_⟩
    · rw [parseLimeAux_succ, if_neg hstop]
    · simp only [limeChainOk, HEADER_SIZE]
      omega
  | succ fuel ih =>
    intro offset hob hfb
    by_cases hcond : offset + HEADER_SIZE ≤ m.length
    · have hcond' : (offset + HEADER_SIZE) % M64 ≤ m.length := by
        rw [Nat.mod_eq_of_lt (by unfold HEADER_SIZE M64 at *; omega)]
        exact hcond
      by_cases hmagic : leVal (readBytes m offset 4) = LIME_MAGIC
      · obtain ⟨hse, hfit⟩ := hpre offset hcond hmagic
        have hend := leVal_read8_lt m hbytes (offset + 16)
        have hsize : limeSegSize (leVal (readBytes m (offset + 8) 8))
            (leVal (readBytes m (offset + 16) 8)) =
            leVal (readBytes m (offset + 16) 8) - leVal (readBytes m (offset + 8) 8) + 1 := by
          unfold limeSegSize
          rw [show leVal (readBytes m (offset + 16) 8) + M64 -
              leVal (readBytes m (offset + 8) 8) + 1 =
              M64 + (leVal (readBytes m (offset + 16) 8) -
                leVal (readBytes m (offset + 8) 8) + 1) by omega]
          rw [Nat.add_mod_left]
          exact Nat.mod_eq_of_lt (by unfold M64 at *; omega)
        have hnext : (offset + HEADER_SIZE + limeSegSize
            (leVal (readBytes m (offset + 8) 8)) (leVal (readBytes m (offset + 16) 8)))
            % M64 =
            offset + HEADER_SIZE + (leVal (readBytes m (offset + 16) 8) -
              leVal (readBytes m (offset + 8) 8) + 1) := by
          rw [hsize]
          exact Nat.mod_eq_of_lt (by unfold HEADER_SIZE M64 at *; omega)
        obtain ⟨rs, hp, hc⟩ := ih (offset + HEADER_SIZE +
            (leVal (readBytes m (offset + 16) 8) - leVal (readBytes m (offset + 8) 8) + 1))
          (by unfold HEADER_SIZE at *; omega) (by unfold HEADER_SIZE at *; omega)
        refine ⟨(⟨leVal (readBytes m (offset + 8) 8),
            leVal (readBytes m (offset + 16) 8),
            offset + HEADER_SIZE⟩ : MemoryRegion) :: rs, ?_, ?_⟩
        · rw [parseLimeAux_succ, if_pos hcond', if_pos hmagic, hnext, hp]
        · exact ⟨hcond, hmagic, rfl, rfl, rfl, hse, hc⟩
      · refine ⟨[], ?_, ?_⟩
        · rw [parseLimeAux_succ, if_pos hcond', if_neg hmagic]
        · simp only [limeChainOk]
          intro hcontra
          exact hmagic hcontra.2
    · have hstop : ¬(offset + HEADER_SIZE) % M64 ≤ m.length := by
        rw [Nat.mod_eq_of_lt (by unfold HEADER_SIZE M64 at *; omega)]
        exact hcond
      refine ⟨[], ?_, ?_⟩
      · rw [parseLimeAux_succ, if_neg hstop]
      · simp only [limeChainOk]
        intro hcontra
        exact hcond hcontra.1

/-- A 32-byte LiME buffer whose single header has `start = 32` and
`end = 2^64 - 1`: `end ≥ start` holds, yet `end - start + 1` wraps and
the offset step returns to 0 forever. -/
def memLimeLoop : List Nat :=
  [0x45, 0x4D, 0x69, 0x4C] ++ u32le 1 ++ u64le 32 ++ u64le (2 ^ 64 - 1) ++
    List.replicate 8 0

/-- On `memLimeLoop` the header loop never terminates: every fuel runs
out at offset 0. -/
theorem memLimeLoop_aux_none : ∀ fuel, parseLimeAux memLimeLoop fuel 0 = none := by
  intro fuel
  induction fuel with
  | zero => rfl
  | succ fuel ih =>
    rw [parseLimeAux_succ, if_pos (by decide), if_pos (by decide),
      show (0 + HEADER_SIZE + limeSegSize (leVal (readBytes memLimeLoop (0 + 8) 8))
        (leVal (readBytes memLimeLoop (0 + 16) 8))) % M64 = 0 from by decide, ih]

/-- C10, counterexample.  `memLimeLoop` satisfies the claimed
precondition - its only in-range header (at offset 0, and the buffer is
exactly 32 bytes) carries the magic and has `end ≥ start` - yet
`parse_lime_header` does not terminate (the embedding's fuel sentinel):
the segment size `end - start + 1` wraps modulo 2^64 so the offset
returns to 0 on every pass. -/
theorem c10_counterexample :
    parse_lime_header memLimeLoop = none ∧
    memLimeLoop.length = HEADER_SIZE ∧
    leVal (readBytes memLimeLoop 0 4) = LIME_MAGIC ∧
    leVal (readBytes memLimeLoop 8 8) ≤ leVal (readBytes memLimeLoop 16 8) := by
  refine ⟨?_, by decide, by decide, by decide⟩
  unfold parse_lime_header
  rw [if_neg (by decide), memLimeLoop_aux_none]

/-- C10, amended.  Under the data-model precondition - dump entries are
bytes, the buffer is far below the usize range, and every 32-byte header
in range carrying the magic satisfies `start ≤ end` AND has a segment
that fits the dump (`end - start + 1 ≤ len`, the data-model invariant) -
the header loop terminates within fuel `len + 1`; each returned region's
`file_offset` equals its header position plus 32 and its fields decode
that header, consecutive headers are chained by `32 + (end - start + 1)`
bytes, parsing stops at the first position without a matching magic
header, and `parse_lime_header` returns normally.  Without the
segment-fits condition the claim fails (`c10` counterexample), and a
header with `end < start` underflows the u64 subtraction, which is what
`limeSegSize` models modulo 2^64. -/
theorem parse_lime_header_total (m : List Nat)
    (hbytes : ∀ b ∈ m, b < 256)
    (hlen : 2 * m.length + 64 < M64)
    (hpre : ∀ off, off + HEADER_SIZE ≤ m.length →
      leVal (readBytes m off 4) = LIME_MAGIC →
      leVal (readBytes m (off + 8) 8) ≤ leVal (readBytes m (off + 16) 8) ∧
      leVal (readBytes m (off + 16) 8) - leVal (readBytes m (off + 8) 8) + 1 ≤
        m.length) :
    ∃ rs, parseLimeAux m (m.length + 1) 0 = some rs ∧ limeChainOk m 0 rs ∧
      ∃ result, parse_lime_header m = some result := by
  obtain ⟨rs, hp, hc⟩ :=
    parseLimeAux_sound m hbytes hlen hpre m.length 0 (by omega) (by omega)
  refine ⟨rs, hp, hc, ?_⟩
  unfold parse_lime_header
  by_cases h1 : m.length < HEADER_SIZE
  · rw [if_pos h1]
    exact ⟨none, rfl⟩
  · rw [if_neg h1, hp]
    by_cases h2 : rs = []
    · exact ⟨none, by simp [h2]⟩
    · exact ⟨some rs, by simp [h2]⟩

/-- A well-formed one-segment LiME buffer: header plus one data byte. -/
def memLimeGood : List Nat :=
  [0x45, 0x4D, 0x69, 0x4C] ++ u32le 1 ++ u64le 0 ++ u64le 0 ++
    List.replicate 8 0 ++ [0xAA]

/-- C10, witness: the amended totality applied to the one-segment
buffer. -/
theorem parse_lime_header_total_witness :
    ∃ rs, parseLimeAux memLimeGood (memLimeGood.length + 1) 0 = some rs ∧
      limeChainOk memLimeGood 0 rs ∧
      ∃ result, parse_lime_header memLimeGood = some result := by
  refine parse_lime_header_total memLimeGood (by decide) (by decide) ?_
  intro off h1 h2
  have hoff : off = 0 ∨ off = 1 := by
    have hl : memLimeGood.length = 33 := by decide
    rw [hl] at h1
    unfold HEADER_SIZE at h1
    omega
  rcases hoff with rfl | rfl
  · exact ⟨by decide, by decide⟩
  · exact absurd h2 (by decide)

end LMP
